import Mathlib

/-!
Verification of the TBCModLoader asset codec and merge engine.

This file gives a shallow embedding of the merge / snapshot / schema-binding
logic of the repository and proves (or refutes) the specification claims
about it.

Embedded from the source:
* `src/bcml/core/game_data/cat_base/item_shop.py` — `Item`, `ItemShop`
  (dict snapshot, `set_item`, `add_item`, `remove_item`, `insert_item`,
  `shift_items`, `import_item_shop`, `from_game_data`).
* `src/bcml/core/game_data/gamototo/ototo_anim.py` — `MainChara.import_main_chara`.
* `src/tbcml/anim/anim.py` — the record schemas (`Rect`, `TextureMetadata`,
  `Texture`, `KeyFrame`, `KeyFrames`, `MaanimMetadata`, `UnitAnim`,
  `MamodelMetaData`, `ModelPart`, `MamodelUnits`, `MamodelInts`,
  `MamodelIntsInts`, `Mamodel`) with their `read_csv` / `apply_csv` methods.

Python dictionaries are embedded as association lists with Python's
update-in-place-or-append-at-end semantics; Python's attribute access
(`getattr` / `setattr` on attribute-name strings) is embedded as explicit
string dispatch that fails (as Python raises `AttributeError`) on a name the
object does not carry; methods that can raise are embedded in `Except`.

The cell/table layer (`tbcml.CSV`, `tbcml.io.csv_fields`,
`tbcml.Modification.read_csv_fields` / `apply_csv_fields`) is not part of the
provided sources; it is modelled from the specification (sections 3, 4.1 and
4.2): a table of rows of optional typed cells, writes extend the table as
needed (the "create if absent" access), typed reads return `none` for an
absent or differently-typed cell, and a schema field is bound at
(row chosen by the field's absolute row index, or the cursor plus the
field's row offset; the field's column index).
-/

deriving instance DecidableEq for Except

/-- Python `dict[int, α]`: an association list in insertion order. -/
abbrev PyDict (α : Type) : Type := List (Int × α)

namespace PyDict

/-- Python `d.get(k)` / `d[k]`: the value at the first entry with key `k`. -/
def get? (d : PyDict α) (k : Int) : Option α :=
  (d.find? (fun p => p.1 = k)).map (fun p => p.2)

/-- Python `d[k] = v`: replace the value of an existing entry in place,
otherwise append a new entry at the end. -/
def set (d : PyDict α) (k : Int) (v : α) : PyDict α :=
  match d with
  | [] => [(k, v)]
  | p :: t => if p.1 = k then (k, v) :: t else p :: set t k v

/-- Python `d.pop(k)`: drop the first entry with key `k`.  (Python raises
`KeyError` when `k` is absent; every claim below only exercises the
present-key case.) -/
def erase (d : PyDict α) (k : Int) : PyDict α :=
  match d with
  | [] => []
  | p :: t => if p.1 = k then t else p :: erase t k

/-- Python `list(d.keys())`. -/
def keys (d : PyDict α) : List Int := d.map (fun p => p.1)

/-- Python `list(d.values())`. -/
def values (d : PyDict α) : List α := d.map (fun p => p.2)

end PyDict

/-! ## Item shop records (`item_shop.py`, class `Item`) -/

/-- One shop entry, from `Item.__init__`. -/
structure Item where
  shop_id : Int
  gatya_item_id : Int
  count : Int
  price : Int
  draw_item_value : Bool
  category_name : String
  rect_id : Int
deriving DecidableEq

/-- A dynamic attribute value, as handed around by Python `getattr`/`setattr`. -/
inductive AttrVal where
  | ival (n : Int)
  | bval (b : Bool)
  | sval (v : String)
deriving DecidableEq

/-- Python `getattr(item, attr)`: returns the named field, or raises
`AttributeError` when `Item` has no attribute of that name (in particular for
the stale names `"imgcut_id"` and `"cut"` that `import_item_shop` lists). -/
def Item.getattr (it : Item) (attr : String) : Except String AttrVal :=
  if attr = "shop_id" then .ok (.ival it.shop_id)
  else if attr = "gatya_item_id" then .ok (.ival it.gatya_item_id)
  else if attr = "count" then .ok (.ival it.count)
  else if attr = "price" then .ok (.ival it.price)
  else if attr = "draw_item_value" then .ok (.bval it.draw_item_value)
  else if attr = "category_name" then .ok (.sval it.category_name)
  else if attr = "rect_id" then .ok (.ival it.rect_id)
  else .error ("AttributeError: " ++ attr)

/-- Python `setattr(item, attr, v)` for the merge loop.  In the source the
value always comes from `getattr` of the same attribute on another `Item`, so
only matching attribute/constructor pairs ever occur; other pairs are mapped
to an error and are unreachable in the embedded flows. -/
def Item.setattr (it : Item) (attr : String) (v : AttrVal) : Except String Item :=
  match attr, v with
  | "shop_id", .ival n => .ok { it with shop_id := n }
  | "gatya_item_id", .ival n => .ok { it with gatya_item_id := n }
  | "count", .ival n => .ok { it with count := n }
  | "price", .ival n => .ok { it with price := n }
  | "draw_item_value", .bval b => .ok { it with draw_item_value := b }
  | "category_name", .sval v => .ok { it with category_name := v }
  | "rect_id", .ival n => .ok { it with rect_id := n }
  | a, _ => .error ("setattr: " ++ a)

namespace ItemShop

/-- The attribute-name list of `ItemShop.import_item_shop` (lines 339-347),
verbatim: it names `"imgcut_id"` and `"cut"`, which `Item` does not define,
and omits `"rect_id"`, which it does. -/
def attrs : List String :=
  ["gatya_item_id", "count", "price", "draw_item_value", "category_name",
   "imgcut_id", "cut"]

/-- `ItemShop.get_item`. -/
def get_item (d : PyDict Item) (shop_index : Int) : Option Item :=
  d.get? shop_index

/-- `ItemShop.set_item`: overwrites `item.shop_id` with the index before
storing. -/
def set_item (d : PyDict Item) (shop_index : Int) (item : Item) : PyDict Item :=
  d.set shop_index { item with shop_id := shop_index }

/-- `ItemShop.add_item`. -/
def add_item (d : PyDict Item) (item : Item) : PyDict Item :=
  set_item d item.shop_id item

/-- `ItemShop.shift_items`: bump `shop_id` of every item at or after
`start_index`, then rebuild the dict keyed by each item's (updated)
`shop_id`, in value order, later entries overwriting earlier ones. -/
def shift_items (d : PyDict Item) (start_index shift : Int) : PyDict Item :=
  (d.values.map (fun it =>
      if it.shop_id ≥ start_index then { it with shop_id := it.shop_id + shift } else it)
    ).foldl (fun m it => m.set it.shop_id it) []

/-- `ItemShop.remove_item`: pop the entry, then shift everything after it
down by one. -/
def remove_item (d : PyDict Item) (shop_index : Int) : PyDict Item :=
  shift_items (d.erase shop_index) (shop_index + 1) (-1)

/-- `ItemShop.insert_item`: shift everything at or after the index up by one,
then store the new item at the index. -/
def insert_item (d : PyDict Item) (shop_index : Int) (item : Item) : PyDict Item :=
  set_item (shift_items d shop_index 1) shop_index item

/-- One step of the attribute loop of `import_item_shop` (lines 356-360):
read the attribute off the incoming and the pristine item (Python `getattr`,
which raises on a name `Item` lacks), and when they differ write it onto the
current item (Python `setattr`, which raises on `None` when the current
snapshot has no record at this id). -/
def merge_attr (other_item gd_item : Item) (cur : Option Item)
    (attr : String) : Except String (Option Item) :=
  match other_item.getattr attr with
  | .error e => .error e
  | .ok other_value =>
    match gd_item.getattr attr with
    | .error e => .error e
    | .ok gd_value =>
      if other_value ≠ gd_value then
        match cur with
        | none => .error "AttributeError: NoneType"
        | some c =>
          match c.setattr attr other_value with
          | .error e => .error e
          | .ok c2 => .ok (some c2)
      else .ok cur

/-- One iteration of the merge loop of `import_item_shop`, steps 349-362 of
the source, for one identity key: skip ids the mod does not carry; diff
attribute-by-attribute against the pristine item when the id exists in the
pristine snapshot (folding the current item through `merge_attr`, the
in-place mutation of the dict entry becoming a final store at the same key);
otherwise store the incoming item wholesale. -/
def merge_one (gd other : PyDict Item) (shop : PyDict Item) (id : Int) :
    Except String (PyDict Item) :=
  match other.get? id with
  | none => .ok shop
  | some other_item =>
    match gd.get? id with
    | some gd_item =>
      match attrs.foldlM (merge_attr other_item gd_item) (shop.get? id) with
      | .error e => .error e
      | .ok (some c) => .ok (shop.set id c)
      | .ok none => .ok shop
    | none => .ok (set_item shop id other_item)

/-- `ItemShop.import_item_shop`: three-way merge of the mod snapshot `other`
into the working snapshot `shop`, with the pristine game snapshot `gd` as
reference point.  The id set is the union of the three key sets (`dedup` of
the concatenation stands for Python's unordered `set`; on a successful run
the per-id updates touch pairwise distinct keys, so the outcome does not
depend on the order). -/
def import_item_shop (shop gd other : PyDict Item) : Except String (PyDict Item) :=
  ((shop.keys ++ other.keys ++ gd.keys).dedup).foldlM (merge_one gd other) shop

/-- One decoded line of `itemShopData.tsv` after the cell conversions of
`from_game_data` (the raw `bc_csv` splitter is a storage-layer collaborator;
the seven typed cells of a data line are taken as given). -/
structure ShopRow where
  shop_id : Int
  gatya_item_id : Int
  count : Int
  price : Int
  draw_item_value : Bool
  category_name : String
  rect_id : Int
deriving DecidableEq

/-- The `Item(...)` construction of `from_game_data`, line 203-211. -/
def Item.ofRow (r : ShopRow) : Item :=
  { shop_id := r.shop_id, gatya_item_id := r.gatya_item_id, count := r.count,
    price := r.price, draw_item_value := r.draw_item_value,
    category_name := r.category_name, rect_id := r.rect_id }

/-- `ItemShop.from_game_data`, decode loop (lines 201-212): the data lines
(`tsv.lines[1:]`, the header already dropped) are folded into a dict keyed
by each line's first cell, a later line with the same key overwriting an
earlier one.  The second component collects the warnings the loop records:
the source records none, so it is always empty. -/
def from_game_data (rows : List ShopRow) : PyDict Item × List String :=
  (rows.foldl (fun d r => d.set r.shop_id (Item.ofRow r)) [], [])

end ItemShop

/-! ## Ototo main character (`ototo_anim.py`, class `MainChara`) -/

/-- `MainChara` holds one `anim.model.Model` (a class outside the provided
sources; its contents are irrelevant to the merge and are abstracted as a
type parameter). -/
structure MainChara (M : Type) where
  model : M
deriving DecidableEq

/-- `MainChara.import_main_chara`.  The source guards the overwrite with
`if gd_chara != other`, but `MainChara` defines neither `__eq__` nor
`__ne__`, so Python compares object identity — and `gd_chara` is freshly
constructed by `from_game_data`, hence never the same object as `other`.
The guard is therefore always true and the current model is unconditionally
replaced by the mod's model; the pristine argument is ignored. -/
def MainChara.import_main_chara (self other : MainChara M) (gd : MainChara M) :
    MainChara M :=
  let _ := gd
  { self with model := other.model }

/-! ## Cell/table layer

Modelled from the spec: `tbcml.CSV` and the schema-field binding
(`IntCSVField`, `StringCSVField`, `tbcml.Modification.read_csv_fields` /
`apply_csv_fields`) are not part of the provided sources.  Following spec
sections 3, 4.1 and 4.2, a table is a grid of optional typed cells; a write
extends the grid as needed ("create if absent"); a typed read returns `none`
for an absent or differently-typed cell; an optional record field holding
`none` writes nothing. -/

/-- A cell value: a plain integer or a string (spec section 3, "Cell"). -/
inductive Cell where
  | intv (n : Int)
  | strv (v : String)
deriving DecidableEq

/-- Write `v` at position `i`, padding with `dflt` past the end. -/
def setPad (l : List α) (i : Nat) (dflt v : α) : List α :=
  match l, i with
  | [], 0 => [v]
  | [], n + 1 => dflt :: setPad [] n dflt v
  | _ :: t, 0 => v :: t
  | x :: t, n + 1 => x :: setPad t n dflt v

/-- Modelled from the spec: the table behind `tbcml.CSV` — rows of optional
cells.  (The source object also carries a mutable cursor `index`; the record
methods below always set it before field access, so the cursor is passed
explicitly instead.) -/
structure CSV where
  rows : List (List (Option Cell))
deriving DecidableEq

namespace CSV

/-- A fresh empty table, `tbcml.CSV()`. -/
def empty : CSV := ⟨[]⟩

/-- Cell lookup; absent rows/cells read as `none`. -/
def get? (csv : CSV) (r c : Nat) : Option Cell :=
  (csv.rows.getD r []).getD c none

/-- Cell write, extending the grid as needed. -/
def setCell (csv : CSV) (r c : Nat) (v : Cell) : CSV :=
  ⟨setPad csv.rows r [] (setPad (csv.rows.getD r []) c none (some v))⟩

/-- An `IntCSVField` read at (row `r`, column `c`). -/
def getInt (csv : CSV) (r c : Nat) : Option Int :=
  match csv.get? r c with
  | some (.intv n) => some n
  | _ => none

/-- A `StringCSVField` read at (row `r`, column `c`). -/
def getStr (csv : CSV) (r c : Nat) : Option String :=
  match csv.get? r c with
  | some (.strv v) => some v
  | _ => none

/-- An `IntCSVField` write: a populated field stores its value, a `none`
field writes nothing. -/
def setOptInt (csv : CSV) (r c : Nat) : Option Int → CSV
  | some n => csv.setCell r c (.intv n)
  | none => csv

/-- A `StringCSVField` write. -/
def setOptStr (csv : CSV) (r c : Nat) : Option String → CSV
  | some v => csv.setCell r c (.strv v)
  | none => csv

end CSV

/-! ## Texture / imgcut schema (`anim.py`, `Rect`, `TextureMetadata`, `Texture`) -/

/-- `Rect`: one imgcut rectangle, one row, columns 0-4. -/
structure Rect where
  x : Option Int
  y : Option Int
  w : Option Int
  h : Option Int
  name : Option String
deriving DecidableEq

/-- `Rect.read_csv` at cursor `index`. -/
def Rect.read_csv (index : Nat) (csv : CSV) : Rect :=
  { x := csv.getInt index 0, y := csv.getInt index 1, w := csv.getInt index 2,
    h := csv.getInt index 3, name := csv.getStr index 4 }

/-- `Rect.apply_csv` at cursor `index`. -/
def Rect.apply_csv (r : Rect) (index : Nat) (csv : CSV) : CSV :=
  ((((csv.setOptInt index 0 r.x).setOptInt index 1 r.y).setOptInt index 2
      r.w).setOptInt index 3 r.h).setOptStr index 4 r.name

/-- `TextureMetadata`: header block at the absolute rows 0-3, column 0. -/
structure TextureMetadata where
  head_name : Option String
  version_code : Option String
  img_name : Option String
  total_rects : Option Int
deriving DecidableEq

/-- `TextureMetadata.read_csv`. -/
def TextureMetadata.read_csv (csv : CSV) : TextureMetadata :=
  { head_name := csv.getStr 0 0, version_code := csv.getStr 1 0,
    img_name := csv.getStr 2 0, total_rects := csv.getInt 3 0 }

/-- `TextureMetadata.apply_csv`. -/
def TextureMetadata.apply_csv (m : TextureMetadata) (csv : CSV) : CSV :=
  (((csv.setOptStr 0 0 m.head_name).setOptStr 1 0 m.version_code).setOptStr 2 0
      m.img_name).setOptInt 3 0 m.total_rects

/-- `Texture`: metadata plus the rect list.  (The sprite image and the
imgcut file name are storage collaborators and carry no schema cells.) -/
structure Texture where
  metadata : TextureMetadata
  rects : List Rect
deriving DecidableEq

/-- The rect write loop of `Texture.apply_csv`: rect `i` at row `index + i`
(the source enumerates with `index = i + 4` and this is called with 4). -/
def Texture.applyRects : List Rect → Nat → CSV → CSV
  | [], _, csv => csv
  | r :: t, index, csv => Texture.applyRects t (index + 1) (r.apply_csv index csv)

/-- `Texture.apply_csv` (table part; the trailing `apply_img` call hands the
sprite to the image collaborator and touches no cell): re-derives
`total_rects` from the live list, writes the metadata block, then each rect
at the rows 4, 5, ... -/
def Texture.apply_csv (t : Texture) (csv : CSV) : Texture × CSV :=
  let md := { t.metadata with total_rects := some (t.rects.length : Int) }
  ({ t with metadata := md }, Texture.applyRects t.rects 4 (md.apply_csv csv))

/-! ## Maanim schema (`anim.py`, `KeyFrame`, `KeyFrames`, `MaanimMetadata`, `UnitAnim`) -/

/-- `KeyFrame`: one keyframe row, columns 0-3. -/
structure KeyFrame where
  frame : Option Int
  change_in_value : Option Int
  ease_mode : Option Int
  ease_power : Option Int
deriving DecidableEq

/-- `KeyFrame.read_csv` at cursor `index`. -/
def KeyFrame.read_csv (index : Nat) (csv : CSV) : KeyFrame :=
  { frame := csv.getInt index 0, change_in_value := csv.getInt index 1,
    ease_mode := csv.getInt index 2, ease_power := csv.getInt index 3 }

/-- `KeyFrame.apply_csv` at cursor `index`. -/
def KeyFrame.apply_csv (k : KeyFrame) (index : Nat) (csv : CSV) : CSV :=
  (((csv.setOptInt index 0 k.frame).setOptInt index 1
      k.change_in_value).setOptInt index 2 k.ease_mode).setOptInt index 3
    k.ease_power

/-- `KeyFrames`: the keyframe block of one model part — header row (columns
0-5), count row (`row_offset=1`, column 0), then one row per keyframe. -/
structure KeyFrames where
  keyframes : List KeyFrame
  model_id : Option Int
  modification_type : Option Int
  loop : Option Int
  min_value : Option Int
  max_value : Option Int
  name : Option String
  total_keyframes : Option Int
deriving DecidableEq

/-- A fresh `KeyFrames()` as constructed in `UnitAnim.read_csv`. -/
def KeyFrames.new : KeyFrames :=
  { keyframes := [], model_id := none, modification_type := none, loop := none,
    min_value := none, max_value := none, name := none, total_keyframes := none }

/-- The keyframe read loop of `KeyFrames.read_csv`: keyframe `i` at row
`index + i` (the source uses `ind = index + i + 2` and this is called with
`index + 2`). -/
def KeyFrames.readList : Nat → Nat → CSV → List KeyFrame
  | 0, _, _ => []
  | n + 1, index, csv => KeyFrame.read_csv index csv :: KeyFrames.readList n (index + 1) csv

/-- `KeyFrames.read_csv` at cursor `index`: reads the header fields, the
count, then `count or 0` keyframes; returns the record together with the
next cursor `index + 2 + len(keyframes)`.  (Every scalar field is
overwritten, so the receiver is immaterial and omitted.) -/
def KeyFrames.read_csv (index : Nat) (csv : CSV) : KeyFrames × Nat :=
  let total := csv.getInt (index + 1) 0
  let ks := KeyFrames.readList (total.getD 0).toNat (index + 2) csv
  ({ keyframes := ks, model_id := csv.getInt index 0,
     modification_type := csv.getInt index 1, loop := csv.getInt index 2,
     min_value := csv.getInt index 3, max_value := csv.getInt index 4,
     name := csv.getStr index 5, total_keyframes := total },
   index + 2 + ks.length)

/-- The keyframe write loop of `KeyFrames.apply_csv`. -/
def KeyFrames.applyList : List KeyFrame → Nat → CSV → CSV
  | [], _, csv => csv
  | k :: t, index, csv => KeyFrames.applyList t (index + 1) (k.apply_csv index csv)

/-- `KeyFrames.apply_csv` at cursor `index`: re-derives `total_keyframes`
from the live list, writes the header fields and the count, then each
keyframe; returns the updated record, the table and the next cursor
`index + 2 + len(keyframes)`. -/
def KeyFrames.apply_csv (kf : KeyFrames) (index : Nat) (csv : CSV) :
    KeyFrames × CSV × Nat :=
  let kf2 := { kf with total_keyframes := some (kf.keyframes.length : Int) }
  let csv2 := ((((((csv.setOptInt index 0 kf2.model_id).setOptInt index 1
      kf2.modification_type).setOptInt index 2 kf2.loop).setOptInt index 3
      kf2.min_value).setOptInt index 4 kf2.max_value).setOptStr index 5
      kf2.name).setOptInt (index + 1) 0 kf2.total_keyframes
  (kf2, KeyFrames.applyList kf2.keyframes (index + 2) csv2,
   index + 2 + kf2.keyframes.length)

/-- `MaanimMetadata`: header block at the absolute rows 0-2, column 0. -/
structure MaanimMetadata where
  head_name : Option String
  version_code : Option String
  total_parts : Option Int
deriving DecidableEq

/-- `MaanimMetadata.read_csv`. -/
def MaanimMetadata.read_csv (csv : CSV) : MaanimMetadata :=
  { head_name := csv.getStr 0 0, version_code := csv.getStr 1 0,
    total_parts := csv.getInt 2 0 }

/-- `MaanimMetadata.apply_csv`. -/
def MaanimMetadata.apply_csv (m : MaanimMetadata) (csv : CSV) : CSV :=
  ((csv.setOptStr 0 0 m.head_name).setOptStr 1 0 m.version_code).setOptInt 2 0
    m.total_parts

/-- `UnitAnim`: one .maanim file — metadata plus the keyframe blocks.
(`name` is the file name, not a schema cell.) -/
structure UnitAnim where
  metadata : MaanimMetadata
  parts : List KeyFrames
  name : Option String
deriving DecidableEq

/-- The block read loop of `UnitAnim.read_csv`: each block starts at the
cursor returned by the previous block, the first at row 3. -/
def UnitAnim.readParts : Nat → Nat → CSV → List KeyFrames × Nat
  | 0, index, _ => ([], index)
  | n + 1, index, csv =>
    let (p, index2) := KeyFrames.read_csv index csv
    let (t, index3) := UnitAnim.readParts n index2 csv
    (p :: t, index3)

/-- `UnitAnim.read_csv`: reads the metadata, then `total_parts or 0` chained
keyframe blocks starting at row 3. -/
def UnitAnim.read_csv (self : UnitAnim) (csv : CSV) : UnitAnim :=
  let md := MaanimMetadata.read_csv csv
  let (ps, _) := UnitAnim.readParts (md.total_parts.getD 0).toNat 3 csv
  { metadata := md, parts := ps, name := self.name }

/-- The block write loop of `UnitAnim.apply_csv`. -/
def UnitAnim.applyParts : List KeyFrames → Nat → CSV → List KeyFrames × CSV × Nat
  | [], index, csv => ([], csv, index)
  | p :: t, index, csv =>
    let (p2, csv2, index2) := p.apply_csv index csv
    let (t2, csv3, index3) := UnitAnim.applyParts t index2 csv2
    (p2 :: t2, csv3, index3)

/-- `UnitAnim.apply_csv`: re-derives `total_parts` from the live part list,
writes the metadata, then the chained keyframe blocks starting at row 3. -/
def UnitAnim.apply_csv (self : UnitAnim) (csv : CSV) : UnitAnim × CSV :=
  let md := { self.metadata with total_parts := some (self.parts.length : Int) }
  let (ps, csv2, _) := UnitAnim.applyParts self.parts 3 (md.apply_csv csv)
  ({ metadata := md, parts := ps, name := self.name }, csv2)

/-! ## Mamodel schema (`anim.py`, `ModelPart`, `MamodelUnits`, `MamodelInts`,
`MamodelIntsInts`, `MamodelMetaData`, `Mamodel`) -/

/-- `MamodelMetaData`: header block at the absolute rows 0-2, column 0. -/
structure MamodelMetaData where
  head_name : Option String
  version_code : Option String
  total_parts : Option Int
deriving DecidableEq

/-- `MamodelMetaData.read_csv`. -/
def MamodelMetaData.read_csv (csv : CSV) : MamodelMetaData :=
  { head_name := csv.getStr 0 0, version_code := csv.getStr 1 0,
    total_parts := csv.getInt 2 0 }

/-- `MamodelMetaData.apply_csv`. -/
def MamodelMetaData.apply_csv (m : MamodelMetaData) (csv : CSV) : CSV :=
  ((csv.setOptStr 0 0 m.head_name).setOptStr 1 0 m.version_code).setOptInt 2 0
    m.total_parts

/-- `ModelPart`: one model part row, columns 0-13. -/
structure ModelPart where
  parent_id : Option Int
  unit_id : Option Int
  cut_id : Option Int
  z_depth : Option Int
  x : Option Int
  y : Option Int
  pivot_x : Option Int
  pivot_y : Option Int
  scale_x : Option Int
  scale_y : Option Int
  rotation : Option Int
  alpha : Option Int
  glow : Option Int
  name : Option String
deriving DecidableEq

/-- `ModelPart.read_csv` at cursor `index`. -/
def ModelPart.read_csv (index : Nat) (csv : CSV) : ModelPart :=
  { parent_id := csv.getInt index 0, unit_id := csv.getInt index 1,
    cut_id := csv.getInt index 2, z_depth := csv.getInt index 3,
    x := csv.getInt index 4, y := csv.getInt index 5,
    pivot_x := csv.getInt index 6, pivot_y := csv.getInt index 7,
    scale_x := csv.getInt index 8, scale_y := csv.getInt index 9,
    rotation := csv.getInt index 10, alpha := csv.getInt index 11,
    glow := csv.getInt index 12, name := csv.getStr index 13 }

/-- `ModelPart.apply_csv` at cursor `index`. -/
def ModelPart.apply_csv (p : ModelPart) (index : Nat) (csv : CSV) : CSV :=
  (((((((((((((csv.setOptInt index 0 p.parent_id).setOptInt index 1
      p.unit_id).setOptInt index 2 p.cut_id).setOptInt index 3
      p.z_depth).setOptInt index 4 p.x).setOptInt index 5 p.y).setOptInt index 6
      p.pivot_x).setOptInt index 7 p.pivot_y).setOptInt index 8
      p.scale_x).setOptInt index 9 p.scale_y).setOptInt index 10
      p.rotation).setOptInt index 11 p.alpha).setOptInt index 12
      p.glow).setOptStr index 13 p.name

/-- `MamodelUnits`: the units row, columns 0-2. -/
structure MamodelUnits where
  scale_unit : Option Int
  angle_unit : Option Int
  alpha_unit : Option Int
deriving DecidableEq

/-- `MamodelUnits.read_csv` at cursor `index`. -/
def MamodelUnits.read_csv (index : Nat) (csv : CSV) : MamodelUnits :=
  { scale_unit := csv.getInt index 0, angle_unit := csv.getInt index 1,
    alpha_unit := csv.getInt index 2 }

/-- `MamodelUnits.apply_csv` at cursor `index`. -/
def MamodelUnits.apply_csv (u : MamodelUnits) (index : Nat) (csv : CSV) : CSV :=
  ((csv.setOptInt index 0 u.scale_unit).setOptInt index 1
      u.angle_unit).setOptInt index 2 u.alpha_unit

/-- `MamodelInts`: one ints row, columns 0-6. -/
structure MamodelInts where
  int_0 : Option Int
  int_1 : Option Int
  int_2 : Option Int
  int_3 : Option Int
  int_4 : Option Int
  int_5 : Option Int
  comment : Option String
deriving DecidableEq

/-- `MamodelInts.read_csv` at cursor `index`. -/
def MamodelInts.read_csv (index : Nat) (csv : CSV) : MamodelInts :=
  { int_0 := csv.getInt index 0, int_1 := csv.getInt index 1,
    int_2 := csv.getInt index 2, int_3 := csv.getInt index 3,
    int_4 := csv.getInt index 4, int_5 := csv.getInt index 5,
    comment := csv.getStr index 6 }

/-- `MamodelInts.apply_csv` at cursor `index`. -/
def MamodelInts.apply_csv (v : MamodelInts) (index : Nat) (csv : CSV) : CSV :=
  ((((((csv.setOptInt index 0 v.int_0).setOptInt index 1 v.int_1).setOptInt
      index 2 v.int_2).setOptInt index 3 v.int_3).setOptInt index 4
      v.int_4).setOptInt index 5 v.int_5).setOptStr index 6 v.comment

/-- `MamodelIntsInts`: count field at the block row, elements on the
following rows. -/
structure MamodelIntsInts where
  ints : List MamodelInts
  total_ints : Option Int
deriving DecidableEq

/-- The element read loop of `MamodelIntsInts.read_csv`: element `i` at row
`index + i` (the source uses `ind = index + i + 1` and this is called with
`index + 1`). -/
def MamodelIntsInts.readList : Nat → Nat → CSV → List MamodelInts
  | 0, _, _ => []
  | n + 1, index, csv =>
    MamodelInts.read_csv index csv :: MamodelIntsInts.readList n (index + 1) csv

/-- `MamodelIntsInts.read_csv` at cursor `index`. -/
def MamodelIntsInts.read_csv (index : Nat) (csv : CSV) : MamodelIntsInts :=
  let total := csv.getInt index 0
  { ints := MamodelIntsInts.readList (total.getD 0).toNat (index + 1) csv,
    total_ints := total }

/-- The element write loop of `MamodelIntsInts.apply_csv`. -/
def MamodelIntsInts.applyList : List MamodelInts → Nat → CSV → CSV
  | [], _, csv => csv
  | v :: t, index, csv =>
    MamodelIntsInts.applyList t (index + 1) (v.apply_csv index csv)

/-- `MamodelIntsInts.apply_csv` at cursor `index`: re-derives `total_ints`
from the live list, writes the count, then the elements. -/
def MamodelIntsInts.apply_csv (b : MamodelIntsInts) (index : Nat) (csv : CSV) :
    MamodelIntsInts × CSV :=
  let b2 := { b with total_ints := some (b.ints.length : Int) }
  (b2, MamodelIntsInts.applyList b2.ints (index + 1)
    (csv.setOptInt index 0 b2.total_ints))

/-- `Mamodel`: metadata, part rows, units row, ints block.  (`mamodel_name`
is the file name, not a schema cell.) -/
structure Mamodel where
  metadata : MamodelMetaData
  parts : List ModelPart
  units : MamodelUnits
  ints : MamodelIntsInts
  mamodel_name : Option String
deriving DecidableEq

/-- The part read loop of `Mamodel.read_csv`: part `i` at row `index + i`
(the source uses `index = i + 3` and this is called with 3). -/
def Mamodel.readParts : Nat → Nat → CSV → List ModelPart
  | 0, _, _ => []
  | n + 1, index, csv =>
    ModelPart.read_csv index csv :: Mamodel.readParts n (index + 1) csv

/-- `Mamodel.read_csv`: metadata, `total_parts or 0` part rows from row 3,
the units row at `len(parts) + 3`, the ints block at `len(parts) + 4`. -/
def Mamodel.read_csv (self : Mamodel) (csv : CSV) : Mamodel :=
  let md := MamodelMetaData.read_csv csv
  let ps := Mamodel.readParts (md.total_parts.getD 0).toNat 3 csv
  { metadata := md, parts := ps,
    units := MamodelUnits.read_csv (ps.length + 3) csv,
    ints := MamodelIntsInts.read_csv (ps.length + 4) csv,
    mamodel_name := self.mamodel_name }

/-- The part write loop of `Mamodel.apply_csv`. -/
def Mamodel.applyParts : List ModelPart → Nat → CSV → CSV
  | [], _, csv => csv
  | p :: t, index, csv => Mamodel.applyParts t (index + 1) (p.apply_csv index csv)

/-- `Mamodel.apply_csv`: re-derives `total_parts`, writes the metadata, the
part rows from row 3, the units row at `len(parts) + 3` and the ints block
at `len(parts) + 4`. -/
def Mamodel.apply_csv (self : Mamodel) (csv : CSV) : Mamodel × CSV :=
  let md := { self.metadata with total_parts := some (self.parts.length : Int) }
  let csv2 := Mamodel.applyParts self.parts 3 (md.apply_csv csv)
  let csv3 := self.units.apply_csv (self.parts.length + 3) csv2
  let (ints2, csv4) := self.ints.apply_csv (self.parts.length + 4) csv3
  ({ metadata := md, parts := self.parts, units := self.units, ints := ints2,
     mamodel_name := self.mamodel_name }, csv4)

/-! ## Table lemmas -/

theorem setPad_getD_self (l : List α) (i : Nat) (d v : α) :
    (setPad l i d v).getD i d = v := by
  induction l generalizing i with
  | nil =>
    induction i with
    | zero => rfl
    | succ n ih => simpa [setPad] using ih
  | cons x t ih =>
    cases i with
    | zero => rfl
    | succ n => simpa [setPad] using ih n

theorem setPad_getD_ne (l : List α) {i j : Nat} (d v : α) (h : j ≠ i) :
    (setPad l i d v).getD j d = l.getD j d := by
  induction l generalizing i j with
  | nil =>
    induction i generalizing j with
    | zero =>
      cases j with
      | zero => exact absurd rfl h
      | succ m => simp [setPad]
    | succ n ih =>
      cases j with
      | zero => simp [setPad]
      | succ m => simpa [setPad] using ih (show m ≠ n by omega)
  | cons x t ih =>
    cases i with
    | zero =>
      cases j with
      | zero => exact absurd rfl h
      | succ m => simp [setPad]
    | succ n =>
      cases j with
      | zero => simp [setPad]
      | succ m => simpa [setPad] using ih (show m ≠ n by omega)

theorem CSV.get?_setCell_self (csv : CSV) (r c : Nat) (v : Cell) :
    (csv.setCell r c v).get? r c = some v := by
  unfold CSV.setCell CSV.get?
  rw [setPad_getD_self, setPad_getD_self]

theorem CSV.get?_setCell_ne (csv : CSV) {r c r' c' : Nat} (v : Cell)
    (h : r' ≠ r ∨ c' ≠ c) :
    (csv.setCell r c v).get? r' c' = csv.get? r' c' := by
  unfold CSV.setCell CSV.get?
  rcases h with h | h
  · rw [setPad_getD_ne _ _ _ h]
  · by_cases hr : r' = r
    · subst hr
      rw [setPad_getD_self, setPad_getD_ne _ _ _ h]
    · rw [setPad_getD_ne _ _ _ hr]

theorem CSV.get?_setOptInt_ne (csv : CSV) {r c r' c' : Nat} (o : Option Int)
    (h : r' ≠ r ∨ c' ≠ c) :
    (csv.setOptInt r c o).get? r' c' = csv.get? r' c' := by
  cases o with
  | none => rfl
  | some n => exact csv.get?_setCell_ne _ h

theorem CSV.get?_setOptStr_ne (csv : CSV) {r c r' c' : Nat} (o : Option String)
    (h : r' ≠ r ∨ c' ≠ c) :
    (csv.setOptStr r c o).get? r' c' = csv.get? r' c' := by
  cases o with
  | none => rfl
  | some v => exact csv.get?_setCell_ne _ h

theorem CSV.getInt_congr {a b : CSV} {r c : Nat} (h : a.get? r c = b.get? r c) :
    a.getInt r c = b.getInt r c := by
  unfold CSV.getInt
  rw [h]

theorem CSV.getStr_congr {a b : CSV} {r c : Nat} (h : a.get? r c = b.get? r c) :
    a.getStr r c = b.getStr r c := by
  unfold CSV.getStr
  rw [h]

theorem CSV.getInt_setOptInt_ne (csv : CSV) {r c r' c' : Nat} (o : Option Int)
    (h : r' ≠ r ∨ c' ≠ c) :
    (csv.setOptInt r c o).getInt r' c' = csv.getInt r' c' :=
  CSV.getInt_congr (csv.get?_setOptInt_ne o h)

theorem CSV.getInt_setOptStr_ne (csv : CSV) {r c r' c' : Nat} (o : Option String)
    (h : r' ≠ r ∨ c' ≠ c) :
    (csv.setOptStr r c o).getInt r' c' = csv.getInt r' c' :=
  CSV.getInt_congr (csv.get?_setOptStr_ne o h)

theorem CSV.getStr_setOptInt_ne (csv : CSV) {r c r' c' : Nat} (o : Option Int)
    (h : r' ≠ r ∨ c' ≠ c) :
    (csv.setOptInt r c o).getStr r' c' = csv.getStr r' c' :=
  CSV.getStr_congr (csv.get?_setOptInt_ne o h)

theorem CSV.getStr_setOptStr_ne (csv : CSV) {r c r' c' : Nat} (o : Option String)
    (h : r' ≠ r ∨ c' ≠ c) :
    (csv.setOptStr r c o).getStr r' c' = csv.getStr r' c' :=
  CSV.getStr_congr (csv.get?_setOptStr_ne o h)

theorem CSV.getInt_setOptInt_self (csv : CSV) (r c : Nat) (o : Option Int)
    (h : csv.get? r c = none) :
    (csv.setOptInt r c o).getInt r c = o := by
  cases o with
  | none => simp [CSV.setOptInt, CSV.getInt, h]
  | some n => simp [CSV.setOptInt, CSV.getInt, csv.get?_setCell_self r c]

theorem CSV.getStr_setOptStr_self (csv : CSV) (r c : Nat) (o : Option String)
    (h : csv.get? r c = none) :
    (csv.setOptStr r c o).getStr r c = o := by
  cases o with
  | none => simp [CSV.setOptStr, CSV.getStr, h]
  | some v => simp [CSV.setOptStr, CSV.getStr, csv.get?_setCell_self r c]

theorem CSV.getInt_setOptInt_some (csv : CSV) (r c : Nat) (n : Int) :
    (csv.setOptInt r c (some n)).getInt r c = some n := by
  simp [CSV.setOptInt, CSV.getInt, csv.get?_setCell_self r c]

/-- All cells at rows `lo` and beyond are still unwritten. -/
def CSV.Untouched (csv : CSV) (lo : Nat) : Prop :=
  ∀ r c, lo ≤ r → csv.get? r c = none

theorem CSV.untouched_empty (lo : Nat) : CSV.empty.Untouched lo := by
  intro r c _
  simp [CSV.empty, CSV.get?]

theorem CSV.Untouched.mono {csv : CSV} {lo lo' : Nat} (h : csv.Untouched lo)
    (hle : lo ≤ lo') : csv.Untouched lo' :=
  fun r c hr => h r c (le_trans hle hr)

theorem CSV.Untouched.setOptInt {csv : CSV} {lo r : Nat} (h : csv.Untouched lo)
    (hr : r < lo) (c : Nat) (o : Option Int) :
    (csv.setOptInt r c o).Untouched lo := by
  intro r' c' hr'
  rw [csv.get?_setOptInt_ne o (Or.inl (by omega))]
  exact h r' c' hr'

theorem CSV.Untouched.setOptStr {csv : CSV} {lo r : Nat} (h : csv.Untouched lo)
    (hr : r < lo) (c : Nat) (o : Option String) :
    (csv.setOptStr r c o).Untouched lo := by
  intro r' c' hr'
  rw [csv.get?_setOptStr_ne o (Or.inl (by omega))]
  exact h r' c' hr'

/-! ## Row-schema lemmas: writes stay on their row, write-then-read restores
the record -/

theorem Rect.rect_apply_get?_ne (rect : Rect) (index : Nat) (csv : CSV) {r c : Nat}
    (h : r ≠ index) :
    (rect.apply_csv index csv).get? r c = csv.get? r c := by
  simp (disch := omega) only [Rect.apply_csv, CSV.get?_setOptInt_ne,
    CSV.get?_setOptStr_ne]

theorem Rect.rect_read_apply (rect : Rect) (index : Nat) (csv : CSV)
    (h : ∀ c, csv.get? index c = none) :
    Rect.read_csv index (rect.apply_csv index csv) = rect := by
  cases rect
  simp [Rect.read_csv, Rect.apply_csv, CSV.getInt_setOptInt_ne,
    CSV.getInt_setOptStr_ne, CSV.getStr_setOptInt_ne, CSV.getStr_setOptStr_ne,
    CSV.getInt_setOptInt_self, CSV.getStr_setOptStr_self,
    CSV.get?_setOptInt_ne, CSV.get?_setOptStr_ne, h]

theorem KeyFrame.kf_apply_get?_ne (k : KeyFrame) (index : Nat) (csv : CSV) {r c : Nat}
    (h : r ≠ index) :
    (k.apply_csv index csv).get? r c = csv.get? r c := by
  simp (disch := omega) only [KeyFrame.apply_csv, CSV.get?_setOptInt_ne]

theorem KeyFrame.kf_read_apply (k : KeyFrame) (index : Nat) (csv : CSV)
    (h : ∀ c, csv.get? index c = none) :
    KeyFrame.read_csv index (k.apply_csv index csv) = k := by
  cases k
  simp [KeyFrame.read_csv, KeyFrame.apply_csv, CSV.getInt_setOptInt_ne,
    CSV.getInt_setOptInt_self, CSV.get?_setOptInt_ne, h]

theorem ModelPart.mp_apply_get?_ne (p : ModelPart) (index : Nat) (csv : CSV)
    {r c : Nat} (h : r ≠ index) :
    (p.apply_csv index csv).get? r c = csv.get? r c := by
  simp (disch := omega) only [ModelPart.apply_csv, CSV.get?_setOptInt_ne,
    CSV.get?_setOptStr_ne]

theorem ModelPart.mp_read_apply (p : ModelPart) (index : Nat) (csv : CSV)
    (h : ∀ c, csv.get? index c = none) :
    ModelPart.read_csv index (p.apply_csv index csv) = p := by
  cases p
  simp [ModelPart.read_csv, ModelPart.apply_csv, CSV.getInt_setOptInt_ne,
    CSV.getInt_setOptStr_ne, CSV.getStr_setOptInt_ne, CSV.getStr_setOptStr_ne,
    CSV.getInt_setOptInt_self, CSV.getStr_setOptStr_self,
    CSV.get?_setOptInt_ne, CSV.get?_setOptStr_ne, h]

theorem MamodelUnits.mu_apply_get?_ne (u : MamodelUnits) (index : Nat) (csv : CSV)
    {r c : Nat} (h : r ≠ index) :
    (u.apply_csv index csv).get? r c = csv.get? r c := by
  simp (disch := omega) only [MamodelUnits.apply_csv, CSV.get?_setOptInt_ne]

theorem MamodelUnits.mu_read_apply (u : MamodelUnits) (index : Nat) (csv : CSV)
    (h : ∀ c, csv.get? index c = none) :
    MamodelUnits.read_csv index (u.apply_csv index csv) = u := by
  cases u
  simp [MamodelUnits.read_csv, MamodelUnits.apply_csv, CSV.getInt_setOptInt_ne,
    CSV.getInt_setOptInt_self, CSV.get?_setOptInt_ne, h]

theorem MamodelInts.mi_apply_get?_ne (v : MamodelInts) (index : Nat) (csv : CSV)
    {r c : Nat} (h : r ≠ index) :
    (v.apply_csv index csv).get? r c = csv.get? r c := by
  simp (disch := omega) only [MamodelInts.apply_csv, CSV.get?_setOptInt_ne,
    CSV.get?_setOptStr_ne]

theorem MamodelInts.mi_read_apply (v : MamodelInts) (index : Nat) (csv : CSV)
    (h : ∀ c, csv.get? index c = none) :
    MamodelInts.read_csv index (v.apply_csv index csv) = v := by
  cases v
  simp [MamodelInts.read_csv, MamodelInts.apply_csv, CSV.getInt_setOptInt_ne,
    CSV.getInt_setOptStr_ne, CSV.getStr_setOptInt_ne, CSV.getStr_setOptStr_ne,
    CSV.getInt_setOptInt_self, CSV.getStr_setOptStr_self,
    CSV.get?_setOptInt_ne, CSV.get?_setOptStr_ne, h]

theorem TextureMetadata.tmd_apply_get?_ge (m : TextureMetadata) (csv : CSV)
    {r c : Nat} (h : 4 ≤ r) :
    (m.apply_csv csv).get? r c = csv.get? r c := by
  simp (disch := omega) only [TextureMetadata.apply_csv, CSV.get?_setOptInt_ne,
    CSV.get?_setOptStr_ne]

theorem MaanimMetadata.amd_apply_get?_ge (m : MaanimMetadata) (csv : CSV)
    {r c : Nat} (h : 3 ≤ r) :
    (m.apply_csv csv).get? r c = csv.get? r c := by
  simp (disch := omega) only [MaanimMetadata.apply_csv, CSV.get?_setOptInt_ne,
    CSV.get?_setOptStr_ne]

theorem MaanimMetadata.amd_read_apply (m : MaanimMetadata) (csv : CSV)
    (h : ∀ r c, r < 3 → csv.get? r c = none) :
    MaanimMetadata.read_csv (m.apply_csv csv) = m := by
  cases m
  simp [MaanimMetadata.read_csv, MaanimMetadata.apply_csv,
    CSV.getInt_setOptInt_ne, CSV.getInt_setOptStr_ne, CSV.getStr_setOptInt_ne,
    CSV.getStr_setOptStr_ne, CSV.getInt_setOptInt_self,
    CSV.getStr_setOptStr_self, CSV.get?_setOptInt_ne, CSV.get?_setOptStr_ne, h]

theorem MamodelMetaData.mmd_apply_get?_ge (m : MamodelMetaData) (csv : CSV)
    {r c : Nat} (h : 3 ≤ r) :
    (m.apply_csv csv).get? r c = csv.get? r c := by
  simp (disch := omega) only [MamodelMetaData.apply_csv, CSV.get?_setOptInt_ne,
    CSV.get?_setOptStr_ne]

theorem MamodelMetaData.mmd_read_apply (m : MamodelMetaData) (csv : CSV)
    (h : ∀ r c, r < 3 → csv.get? r c = none) :
    MamodelMetaData.read_csv (m.apply_csv csv) = m := by
  cases m
  simp [MamodelMetaData.read_csv, MamodelMetaData.apply_csv,
    CSV.getInt_setOptInt_ne, CSV.getInt_setOptStr_ne, CSV.getStr_setOptInt_ne,
    CSV.getStr_setOptStr_ne, CSV.getInt_setOptInt_self,
    CSV.getStr_setOptStr_self, CSV.get?_setOptInt_ne, CSV.get?_setOptStr_ne, h]

/-! ## Row-read congruence: a row read only depends on its own row -/

theorem KeyFrame.kf_read_congr {a b : CSV} {index : Nat}
    (h : ∀ c, a.get? index c = b.get? index c) :
    KeyFrame.read_csv index a = KeyFrame.read_csv index b := by
  unfold KeyFrame.read_csv
  rw [CSV.getInt_congr (h 0), CSV.getInt_congr (h 1), CSV.getInt_congr (h 2),
    CSV.getInt_congr (h 3)]

theorem ModelPart.mp_read_congr {a b : CSV} {index : Nat}
    (h : ∀ c, a.get? index c = b.get? index c) :
    ModelPart.read_csv index a = ModelPart.read_csv index b := by
  unfold ModelPart.read_csv
  rw [CSV.getInt_congr (h 0), CSV.getInt_congr (h 1), CSV.getInt_congr (h 2),
    CSV.getInt_congr (h 3), CSV.getInt_congr (h 4), CSV.getInt_congr (h 5),
    CSV.getInt_congr (h 6), CSV.getInt_congr (h 7), CSV.getInt_congr (h 8),
    CSV.getInt_congr (h 9), CSV.getInt_congr (h 10), CSV.getInt_congr (h 11),
    CSV.getInt_congr (h 12), CSV.getStr_congr (h 13)]

theorem MamodelUnits.mu_read_congr {a b : CSV} {index : Nat}
    (h : ∀ c, a.get? index c = b.get? index c) :
    MamodelUnits.read_csv index a = MamodelUnits.read_csv index b := by
  unfold MamodelUnits.read_csv
  rw [CSV.getInt_congr (h 0), CSV.getInt_congr (h 1), CSV.getInt_congr (h 2)]

theorem MamodelInts.mi_read_congr {a b : CSV} {index : Nat}
    (h : ∀ c, a.get? index c = b.get? index c) :
    MamodelInts.read_csv index a = MamodelInts.read_csv index b := by
  unfold MamodelInts.read_csv
  rw [CSV.getInt_congr (h 0), CSV.getInt_congr (h 1), CSV.getInt_congr (h 2),
    CSV.getInt_congr (h 3), CSV.getInt_congr (h 4), CSV.getInt_congr (h 5),
    CSV.getStr_congr (h 6)]

/-! ## Keyframe list lemmas -/

theorem KeyFrames.kfs_applyList_get?_lt (ks : List KeyFrame) (index : Nat) (csv : CSV)
    {r c : Nat} (h : r < index) :
    (KeyFrames.applyList ks index csv).get? r c = csv.get? r c := by
  induction ks generalizing index csv with
  | nil => rfl
  | cons k t ih =>
    rw [KeyFrames.applyList, ih _ _ (by omega),
      KeyFrame.kf_apply_get?_ne k index csv (by omega)]

theorem KeyFrames.applyList_untouched {csv : CSV} {index : Nat}
    (ks : List KeyFrame) (h : csv.Untouched index) :
    (KeyFrames.applyList ks index csv).Untouched (index + ks.length) := by
  induction ks generalizing index csv with
  | nil => simpa using h
  | cons k t ih =>
    rw [KeyFrames.applyList,
      show index + (k :: t).length = index + 1 + t.length by simp; omega]
    refine ih ?_
    intro r c hr
    rw [KeyFrame.kf_apply_get?_ne k index csv (by omega)]
    exact h r c (by omega)

theorem KeyFrames.kfs_readList_length (n index : Nat) (csv : CSV) :
    (KeyFrames.readList n index csv).length = n := by
  induction n generalizing index with
  | zero => rfl
  | succ m ih => simp [KeyFrames.readList, ih]

theorem KeyFrames.kfs_readList_eq (ks : List KeyFrame) (index : Nat) (csv csvF : CSV)
    (hU : csv.Untouched index)
    (hag : ∀ r c, r < index + ks.length →
      csvF.get? r c = (KeyFrames.applyList ks index csv).get? r c) :
    KeyFrames.readList ks.length index csvF = ks := by
  induction ks generalizing index csv with
  | nil => rfl
  | cons k t ih =>
    rw [List.length_cons, KeyFrames.readList]
    have hrow : ∀ c, csvF.get? index c = (k.apply_csv index csv).get? index c := by
      intro c
      rw [hag index c (by simp), KeyFrames.applyList,
        KeyFrames.kfs_applyList_get?_lt t (index + 1) _ (by omega)]
    have hU1 : (k.apply_csv index csv).Untouched (index + 1) := by
      intro r c hr
      rw [KeyFrame.kf_apply_get?_ne k index csv (by omega)]
      exact hU r c (by omega)
    have hhead : KeyFrame.read_csv index csvF = k := by
      rw [KeyFrame.kf_read_congr hrow]
      exact KeyFrame.kf_read_apply k index csv (fun c => hU index c le_rfl)
    have htail : KeyFrames.readList t.length (index + 1) csvF = t := by
      refine ih (index + 1) (k.apply_csv index csv) hU1 ?_
      intro r c hr
      rw [hag r c (by simp; omega), KeyFrames.applyList]
    rw [hhead, htail]

/-! ## Rect list lemmas -/

theorem Texture.applyRects_get?_lt (rs : List Rect) (index : Nat) (csv : CSV)
    {r c : Nat} (h : r < index) :
    (Texture.applyRects rs index csv).get? r c = csv.get? r c := by
  induction rs generalizing index csv with
  | nil => rfl
  | cons x t ih =>
    rw [Texture.applyRects, ih _ _ (by omega),
      Rect.rect_apply_get?_ne x index csv (by omega)]

/-! ## Model part list lemmas -/

theorem Mamodel.mm_applyParts_get?_lt (ps : List ModelPart) (index : Nat) (csv : CSV)
    {r c : Nat} (h : r < index) :
    (Mamodel.applyParts ps index csv).get? r c = csv.get? r c := by
  induction ps generalizing index csv with
  | nil => rfl
  | cons p t ih =>
    rw [Mamodel.applyParts, ih _ _ (by omega),
      ModelPart.mp_apply_get?_ne p index csv (by omega)]

theorem Mamodel.mm_applyParts_untouched {csv : CSV} {index : Nat}
    (ps : List ModelPart) (h : csv.Untouched index) :
    (Mamodel.applyParts ps index csv).Untouched (index + ps.length) := by
  induction ps generalizing index csv with
  | nil => simpa using h
  | cons p t ih =>
    rw [Mamodel.applyParts,
      show index + (p :: t).length = index + 1 + t.length by simp; omega]
    refine ih ?_
    intro r c hr
    rw [ModelPart.mp_apply_get?_ne p index csv (by omega)]
    exact h r c (by omega)

theorem Mamodel.readParts_length (n index : Nat) (csv : CSV) :
    (Mamodel.readParts n index csv).length = n := by
  induction n generalizing index with
  | zero => rfl
  | succ m ih => simp [Mamodel.readParts, ih]

theorem Mamodel.mm_readParts_eq (ps : List ModelPart) (index : Nat) (csv csvF : CSV)
    (hU : csv.Untouched index)
    (hag : ∀ r c, r < index + ps.length →
      csvF.get? r c = (Mamodel.applyParts ps index csv).get? r c) :
    Mamodel.readParts ps.length index csvF = ps := by
  induction ps generalizing index csv with
  | nil => rfl
  | cons p t ih =>
    rw [List.length_cons, Mamodel.readParts]
    have hrow : ∀ c, csvF.get? index c = (p.apply_csv index csv).get? index c := by
      intro c
      rw [hag index c (by simp), Mamodel.applyParts,
        Mamodel.mm_applyParts_get?_lt t (index + 1) _ (by omega)]
    have hU1 : (p.apply_csv index csv).Untouched (index + 1) := by
      intro r c hr
      rw [ModelPart.mp_apply_get?_ne p index csv (by omega)]
      exact hU r c (by omega)
    have hhead : ModelPart.read_csv index csvF = p := by
      rw [ModelPart.mp_read_congr hrow]
      exact ModelPart.mp_read_apply p index csv (fun c => hU index c le_rfl)
    have htail : Mamodel.readParts t.length (index + 1) csvF = t := by
      refine ih (index + 1) (p.apply_csv index csv) hU1 ?_
      intro r c hr
      rw [hag r c (by simp; omega), Mamodel.applyParts]
    rw [hhead, htail]

/-! ## Mamodel ints list lemmas -/

theorem MamodelIntsInts.mii_applyList_get?_lt (vs : List MamodelInts) (index : Nat)
    (csv : CSV) {r c : Nat} (h : r < index) :
    (MamodelIntsInts.applyList vs index csv).get? r c = csv.get? r c := by
  induction vs generalizing index csv with
  | nil => rfl
  | cons v t ih =>
    rw [MamodelIntsInts.applyList, ih _ _ (by omega),
      MamodelInts.mi_apply_get?_ne v index csv (by omega)]

theorem MamodelIntsInts.mii_readList_length (n index : Nat) (csv : CSV) :
    (MamodelIntsInts.readList n index csv).length = n := by
  induction n generalizing index with
  | zero => rfl
  | succ m ih => simp [MamodelIntsInts.readList, ih]

theorem MamodelIntsInts.mii_readList_eq (vs : List MamodelInts) (index : Nat)
    (csv csvF : CSV) (hU : csv.Untouched index)
    (hag : ∀ r c, r < index + vs.length →
      csvF.get? r c = (MamodelIntsInts.applyList vs index csv).get? r c) :
    MamodelIntsInts.readList vs.length index csvF = vs := by
  induction vs generalizing index csv with
  | nil => rfl
  | cons v t ih =>
    rw [List.length_cons, MamodelIntsInts.readList]
    have hrow : ∀ c, csvF.get? index c = (v.apply_csv index csv).get? index c := by
      intro c
      rw [hag index c (by simp), MamodelIntsInts.applyList,
        MamodelIntsInts.mii_applyList_get?_lt t (index + 1) _ (by omega)]
    have hU1 : (v.apply_csv index csv).Untouched (index + 1) := by
      intro r c hr
      rw [MamodelInts.mi_apply_get?_ne v index csv (by omega)]
      exact hU r c (by omega)
    have hhead : MamodelInts.read_csv index csvF = v := by
      rw [MamodelInts.mi_read_congr hrow]
      exact MamodelInts.mi_read_apply v index csv (fun c => hU index c le_rfl)
    have htail : MamodelIntsInts.readList t.length (index + 1) csvF = t := by
      refine ih (index + 1) (v.apply_csv index csv) hU1 ?_
      intro r c hr
      rw [hag r c (by simp; omega), MamodelIntsInts.applyList]
    rw [hhead, htail]

/-! ## KeyFrames block lemmas -/

/-- The header-and-count writes of `KeyFrames.apply_csv` (row `index`,
columns 0-5, and the count cell at row `index + 1`, column 0), named for use
in the lemmas below. -/
def KeyFrames.header (kf : KeyFrames) (index : Nat) (csv : CSV) : CSV :=
  ((((((csv.setOptInt index 0 kf.model_id).setOptInt index 1
    kf.modification_type).setOptInt index 2 kf.loop).setOptInt index 3
    kf.min_value).setOptInt index 4 kf.max_value).setOptStr index 5
    kf.name).setOptInt (index + 1) 0 (some (kf.keyframes.length : Int))

theorem KeyFrames.kfs_apply_fst (kf : KeyFrames) (index : Nat) (csv : CSV) :
    (kf.apply_csv index csv).1 =
      { kf with total_keyframes := some (kf.keyframes.length : Int) } := rfl

theorem KeyFrames.apply_cursor (kf : KeyFrames) (index : Nat) (csv : CSV) :
    (kf.apply_csv index csv).2.2 = index + 2 + kf.keyframes.length := rfl

theorem KeyFrames.kfs_apply_snd (kf : KeyFrames) (index : Nat) (csv : CSV) :
    (kf.apply_csv index csv).2.1 =
      KeyFrames.applyList kf.keyframes (index + 2) (kf.header index csv) := rfl

theorem KeyFrames.header_get?_lt (kf : KeyFrames) (index : Nat) (csv : CSV)
    {r c : Nat} (h : r < index) :
    (kf.header index csv).get? r c = csv.get? r c := by
  unfold KeyFrames.header
  simp (disch := omega) only [CSV.get?_setOptInt_ne, CSV.get?_setOptStr_ne]

theorem KeyFrames.header_untouched (kf : KeyFrames) (index : Nat) {csv : CSV}
    (h : csv.Untouched index) : (kf.header index csv).Untouched (index + 2) := by
  intro r c hr
  unfold KeyFrames.header
  simp (disch := omega) only [CSV.get?_setOptInt_ne, CSV.get?_setOptStr_ne]
  exact h r c (by omega)

theorem KeyFrames.kfs_apply_get?_lt (kf : KeyFrames) (index : Nat) (csv : CSV)
    {r c : Nat} (h : r < index) :
    (kf.apply_csv index csv).2.1.get? r c = csv.get? r c := by
  rw [KeyFrames.kfs_apply_snd, KeyFrames.kfs_applyList_get?_lt _ _ _ (by omega),
    KeyFrames.header_get?_lt _ _ _ (by omega)]

theorem KeyFrames.apply_untouched (kf : KeyFrames) (index : Nat) {csv : CSV}
    (h : csv.Untouched index) :
    (kf.apply_csv index csv).2.1.Untouched (index + 2 + kf.keyframes.length) := by
  rw [KeyFrames.kfs_apply_snd]
  exact KeyFrames.applyList_untouched kf.keyframes
    (KeyFrames.header_untouched kf index h)

theorem KeyFrames.kfs_read_apply (kf : KeyFrames) (index : Nat) (csv csvF : CSV)
    (hU : csv.Untouched index)
    (hcount : kf.total_keyframes = some (kf.keyframes.length : Int))
    (hag : ∀ r c, r < index + 2 + kf.keyframes.length →
      csvF.get? r c = (kf.apply_csv index csv).2.1.get? r c) :
    KeyFrames.read_csv index csvF = (kf, index + 2 + kf.keyframes.length) := by
  have hrow : ∀ c, csv.get? index c = none := fun c => hU index c le_rfl
  have hget : ∀ r c, r < index + 2 →
      csvF.get? r c = (kf.header index csv).get? r c := by
    intro r c hr
    rw [hag r c (by omega), KeyFrames.kfs_apply_snd,
      KeyFrames.kfs_applyList_get?_lt _ _ _ (by omega)]
  have htotal : csvF.getInt (index + 1) 0 = some (kf.keyframes.length : Int) := by
    rw [CSV.getInt_congr (hget (index + 1) 0 (by omega)), KeyFrames.header,
      CSV.getInt_setOptInt_some]
  have hf0 : csvF.getInt index 0 = kf.model_id := by
    rw [CSV.getInt_congr (hget index 0 (by omega)), KeyFrames.header]
    simp (disch := omega) only [CSV.getInt_setOptInt_ne, CSV.getInt_setOptStr_ne]
    exact CSV.getInt_setOptInt_self _ _ _ _ (hrow 0)
  have hf1 : csvF.getInt index 1 = kf.modification_type := by
    rw [CSV.getInt_congr (hget index 1 (by omega)), KeyFrames.header]
    simp (disch := omega) only [CSV.getInt_setOptInt_ne, CSV.getInt_setOptStr_ne]
    refine CSV.getInt_setOptInt_self _ _ _ _ ?_
    simp (disch := omega) only [CSV.get?_setOptInt_ne]
    exact hrow 1
  have hf2 : csvF.getInt index 2 = kf.loop := by
    rw [CSV.getInt_congr (hget index 2 (by omega)), KeyFrames.header]
    simp (disch := omega) only [CSV.getInt_setOptInt_ne, CSV.getInt_setOptStr_ne]
    refine CSV.getInt_setOptInt_self _ _ _ _ ?_
    simp (disch := omega) only [CSV.get?_setOptInt_ne]
    exact hrow 2
  have hf3 : csvF.getInt index 3 = kf.min_value := by
    rw [CSV.getInt_congr (hget index 3 (by omega)), KeyFrames.header]
    simp (disch := omega) only [CSV.getInt_setOptInt_ne, CSV.getInt_setOptStr_ne]
    refine CSV.getInt_setOptInt_self _ _ _ _ ?_
    simp (disch := omega) only [CSV.get?_setOptInt_ne]
    exact hrow 3
  have hf4 : csvF.getInt index 4 = kf.max_value := by
    rw [CSV.getInt_congr (hget index 4 (by omega)), KeyFrames.header]
    simp (disch := omega) only [CSV.getInt_setOptInt_ne, CSV.getInt_setOptStr_ne]
    refine CSV.getInt_setOptInt_self _ _ _ _ ?_
    simp (disch := omega) only [CSV.get?_setOptInt_ne]
    exact hrow 4
  have hf5 : csvF.getStr index 5 = kf.name := by
    rw [CSV.getStr_congr (hget index 5 (by omega)), KeyFrames.header]
    simp (disch := omega) only [CSV.getStr_setOptInt_ne, CSV.getStr_setOptStr_ne]
    refine CSV.getStr_setOptStr_self _ _ _ _ ?_
    simp (disch := omega) only [CSV.get?_setOptInt_ne]
    exact hrow 5
  have hks : KeyFrames.readList kf.keyframes.length (index + 2) csvF =
      kf.keyframes := by
    refine KeyFrames.kfs_readList_eq kf.keyframes (index + 2) _ csvF
      (KeyFrames.header_untouched kf index hU) ?_
    intro r c hr
    rw [hag r c (by omega), KeyFrames.kfs_apply_snd]
  obtain ⟨ks, m0, m1, m2, m3, m4, m5, tot⟩ := kf
  simp only [KeyFrames.read_csv] at *
  rw [htotal]
  simp only [Option.getD_some, Int.toNat_natCast]
  rw [hks, hf0, hf1, hf2, hf3, hf4, hf5, hcount]

/-! ## UnitAnim parts-chain lemmas -/

theorem UnitAnim.applyParts_fst (ps : List KeyFrames) (index : Nat) (csv : CSV)
    (hc : ∀ p ∈ ps, p.total_keyframes = some (p.keyframes.length : Int)) :
    (UnitAnim.applyParts ps index csv).1 = ps := by
  induction ps generalizing index csv with
  | nil => rfl
  | cons p t ih =>
    simp only [UnitAnim.applyParts]
    rw [ih _ _ (fun q hq => hc q (List.mem_cons_of_mem p hq)),
      KeyFrames.kfs_apply_fst]
    have := hc p (List.mem_cons_self p t)
    cases p
    simp_all

theorem UnitAnim.applyParts_cursor (ps : List KeyFrames) (index : Nat) (csv : CSV) :
    (UnitAnim.applyParts ps index csv).2.2 =
      index + (ps.map (fun p => 2 + p.keyframes.length)).sum := by
  induction ps generalizing index csv with
  | nil => simp [UnitAnim.applyParts]
  | cons p t ih =>
    simp only [UnitAnim.applyParts]
    rw [ih, KeyFrames.apply_cursor]
    simp
    omega

theorem UnitAnim.ua_applyParts_get?_lt (ps : List KeyFrames) (index : Nat) (csv : CSV)
    {r c : Nat} (h : r < index) :
    (UnitAnim.applyParts ps index csv).2.1.get? r c = csv.get? r c := by
  induction ps generalizing index csv with
  | nil => rfl
  | cons p t ih =>
    simp only [UnitAnim.applyParts]
    rw [ih _ _ (by rw [KeyFrames.apply_cursor]; omega),
      KeyFrames.kfs_apply_get?_lt _ _ _ (by omega)]

theorem UnitAnim.ua_applyParts_untouched (ps : List KeyFrames) (index : Nat)
    {csv : CSV} (h : csv.Untouched index) :
    (UnitAnim.applyParts ps index csv).2.1.Untouched
      (UnitAnim.applyParts ps index csv).2.2 := by
  induction ps generalizing index csv with
  | nil => exact h
  | cons p t ih =>
    simp only [UnitAnim.applyParts]
    exact ih _ (by
      rw [KeyFrames.apply_cursor]
      exact KeyFrames.apply_untouched p index h)

theorem UnitAnim.ua_readParts_eq (ps : List KeyFrames) (index : Nat) (csv csvF : CSV)
    (hU : csv.Untouched index)
    (hc : ∀ p ∈ ps, p.total_keyframes = some (p.keyframes.length : Int))
    (hag : ∀ r c, r < (UnitAnim.applyParts ps index csv).2.2 →
      csvF.get? r c = (UnitAnim.applyParts ps index csv).2.1.get? r c) :
    UnitAnim.readParts ps.length index csvF =
      (ps, (UnitAnim.applyParts ps index csv).2.2) := by
  induction ps generalizing index csv with
  | nil => rfl
  | cons p t ih =>
    have hcur : (UnitAnim.applyParts (p :: t) index csv).2.2 =
        (UnitAnim.applyParts t (index + 2 + p.keyframes.length)
          (p.apply_csv index csv).2.1).2.2 := by
      simp only [UnitAnim.applyParts, KeyFrames.apply_cursor]
    have hcurge : index + 2 + p.keyframes.length ≤
        (UnitAnim.applyParts (p :: t) index csv).2.2 := by
      rw [hcur, UnitAnim.applyParts_cursor]
      omega
    have hhead : KeyFrames.read_csv index csvF =
        (p, index + 2 + p.keyframes.length) := by
      refine KeyFrames.kfs_read_apply p index csv csvF hU
        (hc p (List.mem_cons_self p t)) ?_
      intro r c hr
      rw [hag r c (by omega)]
      simp only [UnitAnim.applyParts]
      rw [UnitAnim.ua_applyParts_get?_lt _ _ _ (by rw [KeyFrames.apply_cursor]; omega)]
    have htail : UnitAnim.readParts t.length (index + 2 + p.keyframes.length)
        csvF = (t, (UnitAnim.applyParts (p :: t) index csv).2.2) := by
      rw [hcur]
      refine ih _ _ (by rw [← KeyFrames.apply_cursor p index csv]
                        exact (KeyFrames.apply_cursor p index csv ▸
                          KeyFrames.apply_untouched p index hU))
        (fun q hq => hc q (List.mem_cons_of_mem p hq)) ?_
      intro r c hr
      rw [hag r c (by rw [hcur]; exact hr)]
      simp only [UnitAnim.applyParts, KeyFrames.apply_cursor]
    simp only [List.length_cons, UnitAnim.readParts, hhead, htail]

/-! ## Metadata read congruence -/

theorem MaanimMetadata.amd_read_congr {a b : CSV}
    (h : ∀ r c, r < 3 → a.get? r c = b.get? r c) :
    MaanimMetadata.read_csv a = MaanimMetadata.read_csv b := by
  unfold MaanimMetadata.read_csv
  rw [CSV.getStr_congr (h 0 0 (by omega)), CSV.getStr_congr (h 1 0 (by omega)),
    CSV.getInt_congr (h 2 0 (by omega))]

theorem MamodelMetaData.mmd_read_congr {a b : CSV}
    (h : ∀ r c, r < 3 → a.get? r c = b.get? r c) :
    MamodelMetaData.read_csv a = MamodelMetaData.read_csv b := by
  unfold MamodelMetaData.read_csv
  rw [CSV.getStr_congr (h 0 0 (by omega)), CSV.getStr_congr (h 1 0 (by omega)),
    CSV.getInt_congr (h 2 0 (by omega))]

/-! ## UnitAnim top-level lemmas -/

theorem UnitAnim.ua_apply_fst (ua : UnitAnim) (csv : CSV)
    (h1 : ua.metadata.total_parts = some (ua.parts.length : Int))
    (hc : ∀ p ∈ ua.parts, p.total_keyframes = some (p.keyframes.length : Int)) :
    (ua.apply_csv csv).1 = ua := by
  simp only [UnitAnim.apply_csv]
  rw [UnitAnim.applyParts_fst _ _ _ hc]
  obtain ⟨⟨hn, vc, tp⟩, ps, nm⟩ := ua
  simp_all

theorem UnitAnim.ua_read_apply_roundtrip (ua ua0 : UnitAnim)
    (h1 : ua.metadata.total_parts = some (ua.parts.length : Int))
    (hc : ∀ p ∈ ua.parts, p.total_keyframes = some (p.keyframes.length : Int))
    (hn : ua0.name = ua.name) :
    UnitAnim.read_csv ua0 (ua.apply_csv CSV.empty).2 = ua := by
  obtain ⟨⟨hdn, vc, tp⟩, ps, nm⟩ := ua
  simp only [List.mem_cons] at hc
  have h1' : tp = some (ps.length : Int) := h1
  subst h1'
  have hsnd : ((UnitAnim.mk ⟨hdn, vc, some (ps.length : Int)⟩ ps nm).apply_csv
      CSV.empty).2 =
      (UnitAnim.applyParts ps 3
        (MaanimMetadata.apply_csv ⟨hdn, vc, some (ps.length : Int)⟩
          CSV.empty)).2.1 := rfl
  have hU1 : (MaanimMetadata.apply_csv ⟨hdn, vc, some (ps.length : Int)⟩
      CSV.empty).Untouched 3 := by
    intro r c hr
    rw [MaanimMetadata.amd_apply_get?_ge _ _ hr]
    exact CSV.untouched_empty 0 r c (by omega)
  have hmeta : MaanimMetadata.read_csv
      ((UnitAnim.mk ⟨hdn, vc, some (ps.length : Int)⟩ ps nm).apply_csv
        CSV.empty).2 = ⟨hdn, vc, some (ps.length : Int)⟩ := by
    rw [hsnd]
    rw [MaanimMetadata.amd_read_congr (fun r c hr =>
      UnitAnim.ua_applyParts_get?_lt _ _ _ (by omega))]
    exact MaanimMetadata.amd_read_apply ⟨hdn, vc, some (ps.length : Int)⟩ CSV.empty
      (fun r c _ => CSV.untouched_empty 0 r c (by omega))
  have hparts : UnitAnim.readParts ps.length 3
      ((UnitAnim.mk ⟨hdn, vc, some (ps.length : Int)⟩ ps nm).apply_csv
        CSV.empty).2 =
      (ps, (UnitAnim.applyParts ps 3
        (MaanimMetadata.apply_csv ⟨hdn, vc, some (ps.length : Int)⟩
          CSV.empty)).2.2) := by
    rw [hsnd]
    exact UnitAnim.ua_readParts_eq ps 3 _ _ hU1 hc (fun r c _ => rfl)
  simp only [UnitAnim.read_csv]
  rw [hmeta]
  simp only [Option.getD_some, Int.toNat_natCast]
  rw [hparts]
  simp [hn]

/-! ## MamodelIntsInts block lemmas -/

theorem MamodelIntsInts.mii_apply_fst (b : MamodelIntsInts) (index : Nat) (csv : CSV) :
    (b.apply_csv index csv).1 =
      { b with total_ints := some (b.ints.length : Int) } := rfl

theorem MamodelIntsInts.mii_apply_snd (b : MamodelIntsInts) (index : Nat) (csv : CSV) :
    (b.apply_csv index csv).2 =
      MamodelIntsInts.applyList b.ints (index + 1)
        (csv.setOptInt index 0 (some (b.ints.length : Int))) := rfl

theorem MamodelIntsInts.mii_apply_get?_lt (b : MamodelIntsInts) (index : Nat)
    (csv : CSV) {r c : Nat} (h : r < index) :
    (b.apply_csv index csv).2.get? r c = csv.get? r c := by
  rw [MamodelIntsInts.mii_apply_snd,
    MamodelIntsInts.mii_applyList_get?_lt _ _ _ (by omega),
    CSV.get?_setOptInt_ne _ _ (Or.inl (by omega))]

theorem MamodelIntsInts.mii_read_apply (b : MamodelIntsInts) (index : Nat)
    (csv csvF : CSV) (hU : csv.Untouched index)
    (hcount : b.total_ints = some (b.ints.length : Int))
    (hag : ∀ r c, r < index + 1 + b.ints.length →
      csvF.get? r c = (b.apply_csv index csv).2.get? r c) :
    MamodelIntsInts.read_csv index csvF = b := by
  have hU1 : (csv.setOptInt index 0
      (some (b.ints.length : Int))).Untouched (index + 1) := by
    intro r c hr
    rw [CSV.get?_setOptInt_ne _ _ (Or.inl (by omega))]
    exact hU r c (by omega)
  have htotal : csvF.getInt index 0 = some (b.ints.length : Int) := by
    have := hag index 0 (by omega)
    rw [MamodelIntsInts.mii_apply_snd,
      MamodelIntsInts.mii_applyList_get?_lt _ _ _ (by omega)] at this
    rw [CSV.getInt_congr this, CSV.getInt_setOptInt_some]
  have hints : MamodelIntsInts.readList b.ints.length (index + 1) csvF =
      b.ints := by
    refine MamodelIntsInts.mii_readList_eq b.ints (index + 1) _ csvF hU1 ?_
    intro r c hr
    rw [hag r c (by omega), MamodelIntsInts.mii_apply_snd]
  obtain ⟨vs, tot⟩ := b
  simp only [MamodelIntsInts.read_csv] at *
  rw [htotal]
  simp only [Option.getD_some, Int.toNat_natCast]
  rw [hints, hcount]

/-! ## Mamodel top-level lemmas -/

theorem Mamodel.mm_apply_fst (m : Mamodel) (csv : CSV)
    (h1 : m.metadata.total_parts = some (m.parts.length : Int))
    (h2 : m.ints.total_ints = some (m.ints.ints.length : Int)) :
    (m.apply_csv csv).1 = m := by
  obtain ⟨⟨a, b, tp⟩, ps, us, ⟨vs, ti⟩, nm⟩ := m
  have h1' : tp = some (ps.length : Int) := h1
  have h2' : ti = some (vs.length : Int) := h2
  subst h1' h2'
  rfl

theorem Mamodel.mm_read_apply_roundtrip (m m0 : Mamodel)
    (h1 : m.metadata.total_parts = some (m.parts.length : Int))
    (h2 : m.ints.total_ints = some (m.ints.ints.length : Int))
    (hn : m0.mamodel_name = m.mamodel_name) :
    Mamodel.read_csv m0 (m.apply_csv CSV.empty).2 = m := by
  obtain ⟨⟨a, b, tp⟩, ps, us, ⟨vs, ti⟩, nm⟩ := m
  have h1' : tp = some (ps.length : Int) := h1
  have h2' : ti = some (vs.length : Int) := h2
  subst h1' h2'
  have hsnd : ((Mamodel.mk ⟨a, b, some (ps.length : Int)⟩ ps us
      ⟨vs, some (vs.length : Int)⟩ nm).apply_csv CSV.empty).2 =
      ((MamodelIntsInts.mk vs (some (vs.length : Int))).apply_csv
        (ps.length + 4) (us.apply_csv (ps.length + 3)
          (Mamodel.applyParts ps 3
            (MamodelMetaData.apply_csv ⟨a, b, some (ps.length : Int)⟩
              CSV.empty)))).2 := rfl
  have hU1 : (MamodelMetaData.apply_csv ⟨a, b, some (ps.length : Int)⟩
      CSV.empty).Untouched 3 := by
    intro r c hr
    rw [MamodelMetaData.mmd_apply_get?_ge _ _ hr]
    exact CSV.untouched_empty 0 r c (by omega)
  have hU2 : (Mamodel.applyParts ps 3
      (MamodelMetaData.apply_csv ⟨a, b, some (ps.length : Int)⟩
        CSV.empty)).Untouched (3 + ps.length) :=
    Mamodel.mm_applyParts_untouched ps hU1
  have hU3 : (us.apply_csv (ps.length + 3)
      (Mamodel.applyParts ps 3
        (MamodelMetaData.apply_csv ⟨a, b, some (ps.length : Int)⟩
          CSV.empty))).Untouched (ps.length + 4) := by
    intro r c hr
    rw [MamodelUnits.mu_apply_get?_ne _ _ _ (by omega)]
    exact hU2 r c (by omega)
  have hmeta : MamodelMetaData.read_csv
      ((Mamodel.mk ⟨a, b, some (ps.length : Int)⟩ ps us
        ⟨vs, some (vs.length : Int)⟩ nm).apply_csv CSV.empty).2 =
      ⟨a, b, some (ps.length : Int)⟩ := by
    rw [hsnd]
    have hag3 : ∀ r c : Nat, r < 3 →
        ((MamodelIntsInts.mk vs (some (vs.length : Int))).apply_csv
          (ps.length + 4) (us.apply_csv (ps.length + 3)
            (Mamodel.applyParts ps 3
              (MamodelMetaData.apply_csv ⟨a, b, some (ps.length : Int)⟩
                CSV.empty)))).2.get? r c =
        (MamodelMetaData.apply_csv ⟨a, b, some (ps.length : Int)⟩
          CSV.empty).get? r c := by
      intro r c hr
      rw [MamodelIntsInts.mii_apply_get?_lt _ _ _ (by omega),
        MamodelUnits.mu_apply_get?_ne _ _ _ (by omega),
        Mamodel.mm_applyParts_get?_lt _ _ _ (by omega)]
    rw [MamodelMetaData.mmd_read_congr hag3]
    exact MamodelMetaData.mmd_read_apply ⟨a, b, some (ps.length : Int)⟩ CSV.empty
      (fun r c _ => CSV.untouched_empty 0 r c (by omega))
  have hparts : Mamodel.readParts ps.length 3
      ((Mamodel.mk ⟨a, b, some (ps.length : Int)⟩ ps us
        ⟨vs, some (vs.length : Int)⟩ nm).apply_csv CSV.empty).2 = ps := by
    rw [hsnd]
    have hlen := Mamodel.mm_readParts_eq ps 3
      (MamodelMetaData.apply_csv ⟨a, b, some (ps.length : Int)⟩ CSV.empty)
      ((MamodelIntsInts.mk vs (some (vs.length : Int))).apply_csv
        (ps.length + 4) (us.apply_csv (ps.length + 3)
          (Mamodel.applyParts ps 3
            (MamodelMetaData.apply_csv ⟨a, b, some (ps.length : Int)⟩
              CSV.empty)))).2 hU1 ?_
    · exact hlen
    · intro r c hr
      rw [MamodelIntsInts.mii_apply_get?_lt _ _ _ (by omega),
        MamodelUnits.mu_apply_get?_ne _ _ _ (by omega)]
  have hunits : MamodelUnits.read_csv (ps.length + 3)
      ((Mamodel.mk ⟨a, b, some (ps.length : Int)⟩ ps us
        ⟨vs, some (vs.length : Int)⟩ nm).apply_csv CSV.empty).2 = us := by
    rw [hsnd]
    have hagU : ∀ c : Nat,
        ((MamodelIntsInts.mk vs (some (vs.length : Int))).apply_csv
          (ps.length + 4) (us.apply_csv (ps.length + 3)
            (Mamodel.applyParts ps 3
              (MamodelMetaData.apply_csv ⟨a, b, some (ps.length : Int)⟩
                CSV.empty)))).2.get? (ps.length + 3) c =
        (us.apply_csv (ps.length + 3)
          (Mamodel.applyParts ps 3
            (MamodelMetaData.apply_csv ⟨a, b, some (ps.length : Int)⟩
              CSV.empty))).get? (ps.length + 3) c :=
      fun c => MamodelIntsInts.mii_apply_get?_lt _ _ _ (by omega)
    rw [MamodelUnits.mu_read_congr hagU]
    exact MamodelUnits.mu_read_apply us (ps.length + 3) _
      (fun c => hU2 (ps.length + 3) c (by omega))
  have hints : MamodelIntsInts.read_csv (ps.length + 4)
      ((Mamodel.mk ⟨a, b, some (ps.length : Int)⟩ ps us
        ⟨vs, some (vs.length : Int)⟩ nm).apply_csv CSV.empty).2 =
      ⟨vs, some (vs.length : Int)⟩ := by
    rw [hsnd]
    exact MamodelIntsInts.mii_read_apply ⟨vs, some (vs.length : Int)⟩
      (ps.length + 4) _ _ hU3 rfl (fun r c _ => rfl)
  simp only [Mamodel.read_csv]
  rw [hmeta]
  simp only [Option.getD_some, Int.toNat_natCast]
  rw [hparts, hunits, hints]
  simp [hn]

/-! ## Texture write shape -/

theorem Texture.tex_apply_snd (t : Texture) (csv : CSV) :
    (t.apply_csv csv).2 =
      Texture.applyRects t.rects 4
        (TextureMetadata.apply_csv
          { t.metadata with total_rects := some (t.rects.length : Int) } csv) := rfl

/-! ## PyDict lemmas -/

theorem PyDict.get?_nil (k : Int) : PyDict.get? ([] : PyDict α) k = none := rfl

theorem PyDict.get?_cons (p : Int × α) (t : PyDict α) (k : Int) :
    PyDict.get? (p :: t) k =
      if p.1 = k then some p.2 else PyDict.get? t k := by
  by_cases h : p.1 = k
  · simp [PyDict.get?, List.find?_cons_of_pos, h]
  · simp [PyDict.get?, List.find?_cons_of_neg, h]

theorem PyDict.get?_set_self (d : PyDict α) (k : Int) (v : α) :
    (d.set k v).get? k = some v := by
  induction d with
  | nil => simp [PyDict.set, PyDict.get?_cons]
  | cons p t ih =>
    by_cases h : p.1 = k
    · simp [PyDict.set, h, PyDict.get?_cons]
    · simp [PyDict.set, h, PyDict.get?_cons, ih]

theorem PyDict.get?_set_ne (d : PyDict α) (k : Int) (v : α) {q : Int}
    (h : q ≠ k) : (d.set k v).get? q = d.get? q := by
  induction d with
  | nil => simp [PyDict.set, PyDict.get?_cons, PyDict.get?_nil, Ne.symm h]
  | cons p t ih =>
    by_cases hp : p.1 = k
    · subst hp
      simp [PyDict.set, PyDict.get?_cons, Ne.symm h]
    · simp [PyDict.set, hp, PyDict.get?_cons, ih]

theorem PyDict.get?_erase_ne (d : PyDict α) (k : Int) {q : Int} (h : q ≠ k) :
    (d.erase k).get? q = d.get? q := by
  induction d with
  | nil => rfl
  | cons p t ih =>
    by_cases hp : p.1 = k
    · subst hp
      simp [PyDict.erase, PyDict.get?_cons, Ne.symm h]
    · simp [PyDict.erase, hp, PyDict.get?_cons, ih]

theorem PyDict.erase_sublist (d : PyDict α) (k : Int) : (d.erase k).Sublist d := by
  induction d with
  | nil => exact List.Sublist.refl _
  | cons p t ih =>
    by_cases hp : p.1 = k
    · simp only [PyDict.erase, hp, if_pos]
      exact (List.sublist_cons_self p t)
    · simp only [PyDict.erase, hp, if_neg, not_false_iff]
      exact ih.cons₂ p

theorem PyDict.mem_of_get? {d : PyDict α} {k : Int} {v : α}
    (h : d.get? k = some v) : (k, v) ∈ d := by
  induction d with
  | nil => simp [PyDict.get?_nil] at h
  | cons p t ih =>
    rw [PyDict.get?_cons] at h
    by_cases hp : p.1 = k
    · rw [if_pos hp] at h
      obtain ⟨p1, p2⟩ := p
      simp only at hp h
      subst hp
      injection h with h2
      subst h2
      exact List.mem_cons_self _ _
    · rw [if_neg hp] at h
      exact List.mem_cons_of_mem p (ih h)

theorem PyDict.get?_isSome_iff {d : PyDict α} {k : Int} :
    (d.get? k).isSome ↔ k ∈ d.keys := by
  induction d with
  | nil => simp [PyDict.get?_nil, PyDict.keys]
  | cons p t ih =>
    rw [PyDict.get?_cons]
    by_cases hp : p.1 = k
    · simp [hp, PyDict.keys]
    · simp [hp, PyDict.keys, ih]
      intro hk
      exact absurd hk.symm hp

theorem PyDict.get?_eq_of_mem_nodup {d : PyDict α} {k : Int} {v : α}
    (hnd : d.keys.Nodup) (hm : (k, v) ∈ d) : d.get? k = some v := by
  induction d with
  | nil => simp at hm
  | cons p t ih =>
    simp only [PyDict.keys, List.map_cons, List.nodup_cons] at hnd
    rw [PyDict.get?_cons]
    rcases List.mem_cons.mp hm with h | h
    · rw [← h]
      simp
    · have hk : k ∈ List.map (fun q : Int × α => q.1) t :=
        List.mem_map_of_mem _ h
      have hp1 : p.1 ≠ k := by
        intro hkp
        rw [← hkp] at hk
        exact hnd.1 hk
      rw [if_neg hp1]
      exact ih hnd.2 h

theorem PyDict.mem_erase_of_ne {d : PyDict α} {k : Int} {p : Int × α}
    (hnd : d.keys.Nodup) (hm : p ∈ d) (h : p.1 ≠ k) : p ∈ d.erase k := by
  induction d with
  | nil => simp at hm
  | cons q t ih =>
    by_cases hq : q.1 = k
    · simp only [PyDict.erase, hq, if_pos]
      rcases List.mem_cons.mp hm with hh | hh
      · rw [hh] at h
        exact absurd hq h
      · exact hh
    · simp only [PyDict.erase, hq, if_neg, not_false_iff]
      rcases List.mem_cons.mp hm with hh | hh
      · exact hh ▸ List.mem_cons_self _ _
      · exact List.mem_cons_of_mem q (ih (List.nodup_cons.mp hnd).2 hh)

theorem PyDict.keys_nodup_erase {d : PyDict α} (k : Int)
    (hnd : d.keys.Nodup) : (d.erase k).keys.Nodup := by
  have hsub : (d.erase k).keys.Sublist d.keys :=
    (PyDict.erase_sublist d k).map (fun q : Int × α => q.1)
  exact hsub.nodup hnd

/-- The rebuild pattern `{key b: val b for b in l}` over an initial dict:
the last entry with a given key wins, earlier keys fall through to the
initial dict. -/
theorem PyDict.get?_foldl_set_by {β : Type} (l : List β) (key : β → Int)
    (g : β → α) (init : PyDict α) (k : Int) :
    (l.foldl (fun m b => m.set (key b) (g b)) init).get? k =
      match l.reverse.find? (fun b => key b = k) with
      | some b => some (g b)
      | none => init.get? k := by
  induction l generalizing init with
  | nil => rfl
  | cons b t ih =>
    rw [List.foldl_cons, ih, List.reverse_cons, List.find?_append]
    cases hf : t.reverse.find? (fun b => key b = k) with
    | some c => simp
    | none =>
      simp only [Option.none_or]
      by_cases hb : key b = k
      · subst hb
        simp [List.find?, PyDict.get?_set_self]
      · simp [List.find?, hb, PyDict.get?_set_ne _ _ _ (Ne.symm hb)]

theorem List.find?_eq_some_of_unique {p : α → Bool} {l : List α} {x : α}
    (hx : x ∈ l) (hpx : p x) (huniq : ∀ y ∈ l, p y → y = x) :
    l.find? p = some x := by
  induction l with
  | nil => simp at hx
  | cons a t ih =>
    by_cases ha : p a
    · rw [List.find?_cons_of_pos _ ha]
      rw [huniq a (List.mem_cons_self a t) ha]
    · rw [List.find?_cons_of_neg _ ha]
      rcases List.mem_cons.mp hx with h | h
      · rw [← h] at ha
        exact absurd hpx (by simpa using ha)
      · exact ih h (fun y hy hpy => huniq y (List.mem_cons_of_mem a hy) hpy)

/-! ## Positional-shift helper lemmas -/

theorem PyDict.mem_unique {d : PyDict α} {k : Int} {a b : α}
    (hnd : d.keys.Nodup) (ha : (k, a) ∈ d) (hb : (k, b) ∈ d) : a = b := by
  have h2 := PyDict.get?_eq_of_mem_nodup hnd hb
  rw [PyDict.get?_eq_of_mem_nodup hnd ha] at h2
  exact Option.some.inj h2

theorem PyDict.not_mem_erase_self {d : PyDict α} (hnd : d.keys.Nodup)
    (k : Int) (v : α) : (k, v) ∉ d.erase k := by
  induction d with
  | nil => simp [PyDict.erase]
  | cons p t ih =>
    simp only [PyDict.keys, List.map_cons, List.nodup_cons] at hnd
    by_cases hp : p.1 = k
    · simp only [PyDict.erase, hp, if_pos]
      intro hm
      exact hnd.1 (hp ▸ List.mem_map_of_mem (fun q : Int × α => q.1) hm)
    · simp only [PyDict.erase, hp, if_neg, not_false_iff]
      intro hm
      rcases List.mem_cons.mp hm with h | h
      · exact hp (by rw [← h])
      · exact ih hnd.2 h

theorem mem_range_intCast {n : Nat} {k : Int} :
    k ∈ (List.range n).map (fun j : Nat => (j : Int)) ↔ 0 ≤ k ∧ k < (n : Int) := by
  constructor
  · intro h
    obtain ⟨j, hj, hje⟩ := List.mem_map.mp h
    rw [List.mem_range] at hj
    omega
  · intro h
    refine List.mem_map.mpr ⟨k.toNat, ?_, by omega⟩
    rw [List.mem_range]
    omega

/-- `get?_foldl_set_by` specialised to the item-rebuild fold of
`shift_items`. -/
theorem PyDict.get?_foldl_set_values (l : List Item) (init : PyDict Item)
    (k : Int) :
    (l.foldl (fun m it => m.set it.shop_id it) init).get? k =
      match l.reverse.find? (fun it => it.shop_id = k) with
      | some it => some it
      | none => init.get? k := by
  induction l generalizing init with
  | nil => rfl
  | cons b t ih =>
    rw [List.foldl_cons, ih, List.reverse_cons, List.find?_append]
    cases hf : t.reverse.find? (fun it => it.shop_id = k) with
    | some c => simp
    | none =>
      simp only [Option.none_or]
      by_cases hb : b.shop_id = k
      · subst hb
        simp [List.find?, PyDict.get?_set_self]
      · simp [List.find?, hb, PyDict.get?_set_ne _ _ _ (Ne.symm hb)]

/-- Lookup in the dict rebuilt by `shift_items`: the last shifted value whose
(updated) `shop_id` equals the key. -/
theorem ItemShop.shift_items_get? (d : PyDict Item) (start shift k : Int) :
    (ItemShop.shift_items d start shift).get? k =
      match (d.values.map (fun it =>
          if it.shop_id ≥ start then { it with shop_id := it.shop_id + shift }
          else it)).reverse.find? (fun it => it.shop_id = k) with
      | some it => some it
      | none => none := by
  unfold ItemShop.shift_items
  rw [PyDict.get?_foldl_set_values]
  rfl

/-- Values of a dict are exactly the second components of its entries. -/
theorem PyDict.mem_values_iff {d : PyDict α} {z : α} :
    z ∈ d.values ↔ ∃ q, (q, z) ∈ d := by
  constructor
  · intro hz
    obtain ⟨⟨q, z2⟩, hp, rfl⟩ := List.mem_map.mp hz
    exact ⟨q, hp⟩
  · rintro ⟨q, hq⟩
    exact List.mem_map_of_mem _ hq

/-- Lookup characterisation of `remove_item` on a contiguous 0-based
snapshot: entries before the removed id stay, entries after it move down by
one (with their `shop_id`), everything else is absent. -/
theorem ItemShop.remove_item_get? (d : PyDict Item) (n : Nat) (i : Int)
    (hE : ∀ p ∈ d, p.2.shop_id = p.1)
    (hK : d.keys.Perm ((List.range n).map (fun j : Nat => (j : Int))))
    (hi0 : 0 ≤ i) (hin : i < (n : Int)) (k : Int) :
    (ItemShop.remove_item d i).get? k =
      if 0 ≤ k ∧ k < i then d.get? k
      else if 0 ≤ k ∧ k < (n : Int) - 1 then
        (d.get? (k + 1)).map (fun it => { it with shop_id := k })
      else none := by
  have hnd : d.keys.Nodup := hK.nodup_iff.mpr
    (List.Nodup.map Nat.cast_injective (List.nodup_range n))
  have hdom : ∀ q : Int, (d.get? q).isSome ↔ (0 ≤ q ∧ q < (n : Int)) := by
    intro q
    rw [PyDict.get?_isSome_iff, hK.mem_iff, mem_range_intCast]
  have hmemd : ∀ {q : Int} {v : Item}, (q, v) ∈ d → 0 ≤ q ∧ q < (n : Int) := by
    intro q v hm
    have hq : q ∈ d.keys := List.mem_map_of_mem (fun p : Int × Item => p.1) hm
    exact mem_range_intCast.mp (hK.mem_iff.mp hq)
  have hsub1 : ∀ {p : Int × Item}, p ∈ d.erase i → p ∈ d :=
    fun hp => (PyDict.erase_sublist d i).subset hp
  have hne_i : ∀ {q : Int} {v : Item}, (q, v) ∈ d.erase i → q ≠ i := by
    intro q v hm hqi
    subst hqi
    exact PyDict.not_mem_erase_self hnd q v hm
  unfold ItemShop.remove_item
  rw [ItemShop.shift_items_get?]
  by_cases hk1 : 0 ≤ k ∧ k < i
  · rw [if_pos hk1]
    obtain ⟨it, hit⟩ := Option.isSome_iff_exists.mp
      ((hdom k).mpr ⟨hk1.1, by omega⟩)
    have hitmem : (k, it) ∈ d := PyDict.mem_of_get? hit
    have hitsid : it.shop_id = k := hE _ hitmem
    have hin1 : (k, it) ∈ d.erase i :=
      PyDict.mem_erase_of_ne hnd hitmem (by simp only []; omega)
    have hval : it ∈ (d.erase i).values := PyDict.mem_values_iff.mpr ⟨k, hin1⟩
    have hσ : (if it.shop_id ≥ i + 1 then
        { it with shop_id := it.shop_id + -1 } else it) = it := by
      rw [if_neg (by omega)]
    have hmemrev : it ∈ ((d.erase i).values.map (fun it =>
        if it.shop_id ≥ i + 1 then { it with shop_id := it.shop_id + -1 }
        else it)).reverse := by
      rw [List.mem_reverse]
      exact List.mem_map.mpr ⟨it, hval, hσ⟩
    have hfind : ((d.erase i).values.map (fun it =>
        if it.shop_id ≥ i + 1 then { it with shop_id := it.shop_id + -1 }
        else it)).reverse.find? (fun it => it.shop_id = k) = some it := by
      refine List.find?_eq_some_of_unique hmemrev (decide_eq_true hitsid) ?_
      intro y hy hpy
      rw [List.mem_reverse] at hy
      obtain ⟨z, hz, rfl⟩ := List.mem_map.mp hy
      obtain ⟨q, hq⟩ := PyDict.mem_values_iff.mp hz
      have hziq : z.shop_id = q := hE _ (hsub1 hq)
      have hqne : q ≠ i := hne_i hq
      have hqdom := hmemd (hsub1 hq)
      by_cases hge : z.shop_id ≥ i + 1
      · rw [if_pos hge] at hpy ⊢
        simp only [decide_eq_true_eq] at hpy
        omega
      · rw [if_neg hge] at hpy ⊢
        simp only [decide_eq_true_eq] at hpy
        have hqk : q = k := by omega
        subst hqk
        exact PyDict.mem_unique hnd (hsub1 hq) hitmem
    rw [hfind, hit]
  · rw [if_neg hk1]
    by_cases hk2 : 0 ≤ k ∧ k < (n : Int) - 1
    · rw [if_pos hk2]
      obtain ⟨it, hit⟩ := Option.isSome_iff_exists.mp
        ((hdom (k + 1)).mpr ⟨by omega, by omega⟩)
      have hitmem : (k + 1, it) ∈ d := PyDict.mem_of_get? hit
      have hitsid : it.shop_id = k + 1 := hE _ hitmem
      have hin1 : (k + 1, it) ∈ d.erase i :=
        PyDict.mem_erase_of_ne hnd hitmem (by simp only []; omega)
      have hval : it ∈ (d.erase i).values := PyDict.mem_values_iff.mpr ⟨k + 1, hin1⟩
      have hσ : (if it.shop_id ≥ i + 1 then
          { it with shop_id := it.shop_id + -1 } else it) =
          { it with shop_id := k } := by
        rw [hitsid, if_pos (by omega)]
        have harith : k + 1 + -1 = k := by omega
        rw [harith]
      have hmemrev : ({ it with shop_id := k } : Item) ∈
          ((d.erase i).values.map (fun it =>
            if it.shop_id ≥ i + 1 then { it with shop_id := it.shop_id + -1 }
            else it)).reverse := by
        rw [List.mem_reverse]
        exact List.mem_map.mpr ⟨it, hval, hσ⟩
      have hfind : ((d.erase i).values.map (fun it =>
          if it.shop_id ≥ i + 1 then { it with shop_id := it.shop_id + -1 }
          else it)).reverse.find? (fun it => it.shop_id = k) =
          some { it with shop_id := k } := by
        refine List.find?_eq_some_of_unique hmemrev (decide_eq_true rfl) ?_
        intro y hy hpy
        rw [List.mem_reverse] at hy
        obtain ⟨z, hz, rfl⟩ := List.mem_map.mp hy
        obtain ⟨q, hq⟩ := PyDict.mem_values_iff.mp hz
        have hziq : z.shop_id = q := hE _ (hsub1 hq)
        have hqne : q ≠ i := hne_i hq
        have hqdom := hmemd (hsub1 hq)
        by_cases hge : z.shop_id ≥ i + 1
        · rw [if_pos hge] at hpy ⊢
          simp only [decide_eq_true_eq] at hpy
          have hqk : q = k + 1 := by omega
          subst hqk
          have hz_it : z = it := PyDict.mem_unique hnd (hsub1 hq) hitmem
          subst hz_it
          rw [hitsid]
          have harith : k + 1 + -1 = k := by omega
          rw [harith]
        · rw [if_neg hge] at hpy
          simp only [decide_eq_true_eq] at hpy
          omega
      rw [hfind, hit]
      rfl
    · rw [if_neg hk2]
      have hnone : ((d.erase i).values.map (fun it =>
          if it.shop_id ≥ i + 1 then { it with shop_id := it.shop_id + -1 }
          else it)).reverse.find? (fun it => it.shop_id = k) = none := by
        rw [List.find?_eq_none]
        intro y hy
        rw [List.mem_reverse] at hy
        obtain ⟨z, hz, rfl⟩ := List.mem_map.mp hy
        obtain ⟨q, hq⟩ := PyDict.mem_values_iff.mp hz
        have hziq : z.shop_id = q := hE _ (hsub1 hq)
        have hqne : q ≠ i := hne_i hq
        have hqdom := hmemd (hsub1 hq)
        by_cases hge : z.shop_id ≥ i + 1
        · rw [if_pos hge]
          simp only [decide_eq_true_eq]
          omega
        · rw [if_neg hge]
          simp only [decide_eq_true_eq]
          omega
      rw [hnone]

/-- Lookup characterisation of `insert_item` on a contiguous 0-based
snapshot: the new item lands at the insertion id, entries before it stay,
entries at or after it move up by one (with their `shop_id`). -/
theorem ItemShop.insert_item_get? (d : PyDict Item) (n : Nat) (i : Int)
    (hE : ∀ p ∈ d, p.2.shop_id = p.1)
    (hK : d.keys.Perm ((List.range n).map (fun j : Nat => (j : Int))))
    (hi0 : 0 ≤ i) (hin : i < (n : Int)) (item : Item) (k : Int) :
    (ItemShop.insert_item d i item).get? k =
      if k = i then some { item with shop_id := i }
      else if 0 ≤ k ∧ k < i then d.get? k
      else if i < k ∧ k < (n : Int) + 1 then
        (d.get? (k - 1)).map (fun it => { it with shop_id := k })
      else none := by
  have hnd : d.keys.Nodup := hK.nodup_iff.mpr
    (List.Nodup.map Nat.cast_injective (List.nodup_range n))
  have hdom : ∀ q : Int, (d.get? q).isSome ↔ (0 ≤ q ∧ q < (n : Int)) := by
    intro q
    rw [PyDict.get?_isSome_iff, hK.mem_iff, mem_range_intCast]
  have hmemd : ∀ {q : Int} {v : Item}, (q, v) ∈ d → 0 ≤ q ∧ q < (n : Int) := by
    intro q v hm
    have hq : q ∈ d.keys := List.mem_map_of_mem (fun p : Int × Item => p.1) hm
    exact mem_range_intCast.mp (hK.mem_iff.mp hq)
  unfold ItemShop.insert_item ItemShop.set_item
  by_cases hki : k = i
  · subst hki
    rw [if_pos rfl, PyDict.get?_set_self]
  · rw [if_neg hki, PyDict.get?_set_ne _ _ _ hki, ItemShop.shift_items_get?]
    by_cases hk1 : 0 ≤ k ∧ k < i
    · rw [if_pos hk1]
      obtain ⟨it, hit⟩ := Option.isSome_iff_exists.mp
        ((hdom k).mpr ⟨hk1.1, by omega⟩)
      have hitmem : (k, it) ∈ d := PyDict.mem_of_get? hit
      have hitsid : it.shop_id = k := hE _ hitmem
      have hval : it ∈ d.values := PyDict.mem_values_iff.mpr ⟨k, hitmem⟩
      have hσ : (if it.shop_id ≥ i then
          { it with shop_id := it.shop_id + 1 } else it) = it := by
        rw [if_neg (by omega)]
      have hmemrev : it ∈ (d.values.map (fun it =>
          if it.shop_id ≥ i then { it with shop_id := it.shop_id + 1 }
          else it)).reverse := by
        rw [List.mem_reverse]
        exact List.mem_map.mpr ⟨it, hval, hσ⟩
      have hfind : (d.values.map (fun it =>
          if it.shop_id ≥ i then { it with shop_id := it.shop_id + 1 }
          else it)).reverse.find? (fun it => it.shop_id = k) = some it := by
        refine List.find?_eq_some_of_unique hmemrev (decide_eq_true hitsid) ?_
        intro y hy hpy
        rw [List.mem_reverse] at hy
        obtain ⟨z, hz, rfl⟩ := List.mem_map.mp hy
        obtain ⟨q, hq⟩ := PyDict.mem_values_iff.mp hz
        have hziq : z.shop_id = q := hE _ hq
        have hqdom := hmemd hq
        by_cases hge : z.shop_id ≥ i
        · rw [if_pos hge] at hpy ⊢
          simp only [decide_eq_true_eq] at hpy
          omega
        · rw [if_neg hge] at hpy ⊢
          simp only [decide_eq_true_eq] at hpy
          have hqk : q = k := by omega
          subst hqk
          exact PyDict.mem_unique hnd hq hitmem
      rw [hfind, hit]
    · by_cases hk2 : i < k ∧ k < (n : Int) + 1
      · rw [if_neg hk1, if_pos hk2]
        obtain ⟨it, hit⟩ := Option.isSome_iff_exists.mp
          ((hdom (k - 1)).mpr ⟨by omega, by omega⟩)
        have hitmem : (k - 1, it) ∈ d := PyDict.mem_of_get? hit
        have hitsid : it.shop_id = k - 1 := hE _ hitmem
        have hval : it ∈ d.values := PyDict.mem_values_iff.mpr ⟨k - 1, hitmem⟩
        have hσ : (if it.shop_id ≥ i then
            { it with shop_id := it.shop_id + 1 } else it) =
            { it with shop_id := k } := by
          rw [hitsid, if_pos (by omega)]
          have harith : k - 1 + 1 = k := by omega
          rw [harith]
        have hmemrev : ({ it with shop_id := k } : Item) ∈
            (d.values.map (fun it =>
              if it.shop_id ≥ i then { it with shop_id := it.shop_id + 1 }
              else it)).reverse := by
          rw [List.mem_reverse]
          exact List.mem_map.mpr ⟨it, hval, hσ⟩
        have hfind : (d.values.map (fun it =>
            if it.shop_id ≥ i then { it with shop_id := it.shop_id + 1 }
            else it)).reverse.find? (fun it => it.shop_id = k) =
            some { it with shop_id := k } := by
          refine List.find?_eq_some_of_unique hmemrev (decide_eq_true rfl) ?_
          intro y hy hpy
          rw [List.mem_reverse] at hy
          obtain ⟨z, hz, rfl⟩ := List.mem_map.mp hy
          obtain ⟨q, hq⟩ := PyDict.mem_values_iff.mp hz
          have hziq : z.shop_id = q := hE _ hq
          have hqdom := hmemd hq
          by_cases hge : z.shop_id ≥ i
          · rw [if_pos hge] at hpy ⊢
            simp only [decide_eq_true_eq] at hpy
            have hqk : q = k - 1 := by omega
            subst hqk
            have hz_it : z = it := PyDict.mem_unique hnd hq hitmem
            subst hz_it
            rw [hitsid]
            have harith : k - 1 + 1 = k := by omega
            rw [harith]
          · rw [if_neg hge] at hpy
            simp only [decide_eq_true_eq] at hpy
            omega
        rw [hfind, hit]
        rfl
      · rw [if_neg hk1, if_neg hk2]
        have hnone : (d.values.map (fun it =>
            if it.shop_id ≥ i then { it with shop_id := it.shop_id + 1 }
            else it)).reverse.find? (fun it => it.shop_id = k) = none := by
          rw [List.find?_eq_none]
          intro y hy
          rw [List.mem_reverse] at hy
          obtain ⟨z, hz, rfl⟩ := List.mem_map.mp hy
          obtain ⟨q, hq⟩ := PyDict.mem_values_iff.mp hz
          have hziq : z.shop_id = q := hE _ hq
          have hqdom := hmemd hq
          by_cases hge : z.shop_id ≥ i
          · rw [if_pos hge]
            simp only [decide_eq_true_eq]
            omega
          · rw [if_neg hge]
            simp only [decide_eq_true_eq]
            omega
        rw [hnone]

/-! ## Merge-loop lemmas -/

theorem ItemShop.merge_one_preserve {gd other s s2 : PyDict Item}
    {id id2 : Int} (hne : id2 ≠ id)
    (hok : ItemShop.merge_one gd other s id2 = .ok s2) :
    s2.get? id = s.get? id := by
  unfold ItemShop.merge_one at hok
  rcases ho : PyDict.get? other id2 with _ | oi <;> rw [ho] at hok <;>
    (try dsimp only at hok)
  · cases hok
    rfl
  · rcases hg : PyDict.get? gd id2 with _ | gi <;> rw [hg] at hok <;>
      (try dsimp only at hok)
    · cases hok
      exact PyDict.get?_set_ne _ _ _ (Ne.symm hne)
    · rcases hf : ItemShop.attrs.foldlM (ItemShop.merge_attr oi gi)
          (PyDict.get? s id2) with _ | cur <;> rw [hf] at hok <;>
        (try dsimp only at hok)
      · cases hok
      · rcases cur with _ | c
        · cases hok
          rfl
        · cases hok
          exact PyDict.get?_set_ne _ _ _ (Ne.symm hne)

theorem ItemShop.foldlM_preserve {gd other : PyDict Item} {id : Int} :
    ∀ (L : List Int) (s m : PyDict Item), (∀ x ∈ L, x ≠ id) →
    L.foldlM (ItemShop.merge_one gd other) s = .ok m →
    m.get? id = s.get? id := by
  intro L
  induction L with
  | nil =>
    intro s m _ hok
    cases hok
    rfl
  | cons x t ih =>
    intro s m hall hok
    rw [List.foldlM_cons] at hok
    rcases hx : ItemShop.merge_one gd other s x with _ | s2 <;> rw [hx] at hok
    · have hbad : (Except.error _ : Except String (PyDict Item)) = .ok m := hok
      cases hbad
    · have hok2 : t.foldlM (ItemShop.merge_one gd other) s2 = .ok m := hok
      rw [ih s2 m (fun y hy => hall y (List.mem_cons_of_mem x hy)) hok2]
      exact ItemShop.merge_one_preserve (hall x (List.mem_cons_self x t)) hx

theorem ItemShop.merge_one_new {gd other s : PyDict Item} {id : Int} {oi : Item}
    (ho : other.get? id = some oi) (hg : gd.get? id = none) :
    ItemShop.merge_one gd other s id = .ok (ItemShop.set_item s id oi) := by
  unfold ItemShop.merge_one
  rw [ho, hg]

theorem ItemShop.fold_new {gd other : PyDict Item} {id : Int} {oi : Item}
    (ho : other.get? id = some oi) (hg : gd.get? id = none) :
    ∀ (L : List Int) (s m : PyDict Item), L.Nodup → id ∈ L →
    L.foldlM (ItemShop.merge_one gd other) s = .ok m →
    m.get? id = some { oi with shop_id := id } := by
  intro L
  induction L with
  | nil =>
    intro s m _ hm
    simp at hm
  | cons x t ih =>
    intro s m hnd hm hok
    rw [List.foldlM_cons] at hok
    by_cases hx : x = id
    · subst hx
      rw [ItemShop.merge_one_new ho hg] at hok
      have hok2 : t.foldlM (ItemShop.merge_one gd other)
          (ItemShop.set_item s x oi) = .ok m := hok
      have hnotin : ∀ y ∈ t, y ≠ x :=
        fun y hy hxy => (List.nodup_cons.mp hnd).1 (hxy ▸ hy)
      rw [ItemShop.foldlM_preserve t _ m hnotin hok2]
      exact PyDict.get?_set_self _ _ _
    · rcases List.mem_cons.mp hm with h | h
      · exact absurd h.symm hx
      · rcases hs2 : ItemShop.merge_one gd other s x with _ | s2 <;> rw [hs2] at hok
        · have hbad : (Except.error _ : Except String (PyDict Item)) = .ok m := hok
          cases hbad
        · have hok2 : t.foldlM (ItemShop.merge_one gd other) s2 = .ok m := hok
          exact ih s2 m (List.nodup_cons.mp hnd).2 h hok2

/-! ## Claim C1 -/

/-- C1 (code bug evidence): at the spec's own scenario — item id 5 present in
current, pristine and mod, pristine price 100, mod price 150 — the merge
does not field-merge: it raises `AttributeError` because the attribute list
of `import_item_shop` names `imgcut_id`, which `Item` does not define. -/
theorem C1_field_merge_raises_attribute_error :
    ItemShop.import_item_shop
      [(5, ⟨5, 1, 1, 100, false, "XP", 0⟩)]
      [(5, ⟨5, 1, 1, 100, false, "XP", 0⟩)]
      [(5, ⟨5, 1, 1, 150, false, "XP", 0⟩)] =
      Except.error "AttributeError: imgcut_id" := by decide

/-! ## Claim C2 -/

/-- C2 (code bug evidence): the merge identity law fails for both asset
types.  Re-importing the pristine item shop raises `AttributeError` (stale
attribute list), and `MainChara.import_main_chara` overwrites the current
model with the pristine model even though incoming equals pristine, because
the `gd_chara != other` guard compares object identity (no `__eq__`) and is
always true. -/
theorem C2_merge_identity_law_violated :
    ItemShop.import_item_shop
      [(5, ⟨5, 1, 1, 100, false, "XP", 0⟩)]
      [(5, ⟨5, 1, 1, 100, false, "XP", 0⟩)]
      [(5, ⟨5, 1, 1, 100, false, "XP", 0⟩)] =
      Except.error "AttributeError: imgcut_id"
    ∧ MainChara.import_main_chara (⟨1⟩ : MainChara Int) ⟨2⟩ ⟨2⟩ ≠ ⟨1⟩ := by
  exact ⟨by decide, by decide⟩

/-! ## Claim C3 -/

/-- C3 (code bug evidence): disjoint-field composition cannot hold — already
the first merge `merge(current, pristine, A)` raises `AttributeError` for
any record present in both the mod and the pristine snapshot (mod A edits
only `count`, mod B edits only `price`; both merges crash). -/
theorem C3_disjoint_composition_crashes :
    ItemShop.import_item_shop
      [(5, ⟨5, 1, 1, 100, false, "XP", 0⟩)]
      [(5, ⟨5, 1, 1, 100, false, "XP", 0⟩)]
      [(5, ⟨5, 1, 2, 100, false, "XP", 0⟩)] =
      Except.error "AttributeError: imgcut_id"
    ∧ ItemShop.import_item_shop
      [(5, ⟨5, 1, 1, 100, false, "XP", 0⟩)]
      [(5, ⟨5, 1, 1, 100, false, "XP", 0⟩)]
      [(5, ⟨5, 1, 1, 150, false, "XP", 0⟩)] =
      Except.error "AttributeError: imgcut_id" := by
  exact ⟨by decide, by decide⟩

/-! ## Claim C4 -/

/-- C4: an identity key present in the incoming snapshot but absent from the
pristine snapshot is stored wholesale into the current snapshot (through
`set_item`, which stamps the key into the item's `shop_id`), with no
attribute-by-attribute diff — whenever the merge run returns at all. -/
theorem C4_new_record_overwritten_wholesale (shop gd other m : PyDict Item)
    (id : Int) (oi : Item)
    (ho : other.get? id = some oi) (hg : gd.get? id = none)
    (hok : ItemShop.import_item_shop shop gd other = .ok m) :
    m.get? id = some { oi with shop_id := id } := by
  unfold ItemShop.import_item_shop at hok
  refine ItemShop.fold_new ho hg _ shop m (List.nodup_dedup _) ?_ hok
  rw [List.mem_dedup]
  refine List.mem_append.mpr (Or.inl (List.mem_append.mpr (Or.inr ?_)))
  exact PyDict.get?_isSome_iff.mp (by simp [ho])

/-- Witness for C4 at a concrete input: current and pristine share item 5,
the mod adds a new item 7; the merge succeeds and stores item 7 wholesale. -/
theorem C4_witness :
    PyDict.get?
      [((5 : Int), (⟨5, 1, 1, 100, false, "XP", 0⟩ : Item)),
       (7, ⟨7, 2, 3, 50, true, "Battle Items", 1⟩)] 7 =
      some ⟨7, 2, 3, 50, true, "Battle Items", 1⟩ :=
  C4_new_record_overwritten_wholesale
    [(5, ⟨5, 1, 1, 100, false, "XP", 0⟩)]
    [(5, ⟨5, 1, 1, 100, false, "XP", 0⟩)]
    [(7, ⟨7, 2, 3, 50, true, "Battle Items", 1⟩)]
    [(5, ⟨5, 1, 1, 100, false, "XP", 0⟩), (7, ⟨7, 2, 3, 50, true, "Battle Items", 1⟩)]
    7 ⟨7, 2, 3, 50, true, "Battle Items", 1⟩
    (by decide) (by decide) (by decide)

/-! ## Write-shape and cursor lemmas for the count/cursor claims -/

theorem Mamodel.mm_apply_snd (m : Mamodel) (csv : CSV) :
    (m.apply_csv csv).2 =
      (m.ints.apply_csv (m.parts.length + 4)
        (m.units.apply_csv (m.parts.length + 3)
          (Mamodel.applyParts m.parts 3
            (MamodelMetaData.apply_csv
              { m.metadata with total_parts := some (m.parts.length : Int) }
              csv)))).2 := rfl

theorem UnitAnim.readParts_cursor (n index : Nat) (csv : CSV) :
    (UnitAnim.readParts n index csv).2 =
      index + (((UnitAnim.readParts n index csv).1.map
        (fun p => 2 + p.keyframes.length)).sum) := by
  induction n generalizing index with
  | zero => simp [UnitAnim.readParts]
  | succ m ih =>
    simp only [UnitAnim.readParts]
    rw [ih]
    simp only [List.map_cons, List.sum_cons, KeyFrames.read_csv]
    omega

/-! ## Claim C5 -/

/-- C5: every count-prefixed encode re-derives the count field from the live
in-memory list length, in the record and in the written table cell —
`Texture.apply_csv` writes `total_rects = len(rects)` (cell row 3, column 0),
`KeyFrames.apply_csv` writes `total_keyframes = len(keyframes)` (cell row
`index + 1`, column 0) and `Mamodel.apply_csv` writes
`total_parts = len(parts)` (cell row 2, column 0), whatever stale count the
record held before encoding. -/
theorem C5_count_rederived_from_live_list :
    (∀ (t : Texture) (csv : CSV),
      (t.apply_csv csv).1.metadata.total_rects = some (t.rects.length : Int) ∧
      (t.apply_csv csv).2.getInt 3 0 = some (t.rects.length : Int)) ∧
    (∀ (kf : KeyFrames) (index : Nat) (csv : CSV),
      (kf.apply_csv index csv).1.total_keyframes =
        some (kf.keyframes.length : Int) ∧
      (kf.apply_csv index csv).2.1.getInt (index + 1) 0 =
        some (kf.keyframes.length : Int)) ∧
    (∀ (m : Mamodel) (csv : CSV),
      (m.apply_csv csv).1.metadata.total_parts = some (m.parts.length : Int) ∧
      (m.apply_csv csv).2.getInt 2 0 = some (m.parts.length : Int)) := by
  refine ⟨fun t csv => ⟨rfl, ?_⟩, fun kf index csv => ⟨rfl, ?_⟩,
    fun m csv => ⟨rfl, ?_⟩⟩
  · have h1 : (Texture.applyRects t.rects 4
        (TextureMetadata.apply_csv
          { t.metadata with total_rects := some (t.rects.length : Int) }
          csv)).get? 3 0 =
        (TextureMetadata.apply_csv
          { t.metadata with total_rects := some (t.rects.length : Int) }
          csv).get? 3 0 :=
      Texture.applyRects_get?_lt _ _ _ (by omega)
    rw [Texture.tex_apply_snd, CSV.getInt_congr h1]
    exact CSV.getInt_setOptInt_some _ _ _ _
  · have h1 : (KeyFrames.applyList kf.keyframes (index + 2)
        (kf.header index csv)).get? (index + 1) 0 =
        (kf.header index csv).get? (index + 1) 0 :=
      KeyFrames.kfs_applyList_get?_lt _ _ _ (by omega)
    rw [KeyFrames.kfs_apply_snd, CSV.getInt_congr h1]
    exact CSV.getInt_setOptInt_some _ _ _ _
  · have h1 : ((m.ints.apply_csv (m.parts.length + 4)
        (m.units.apply_csv (m.parts.length + 3)
          (Mamodel.applyParts m.parts 3
            (MamodelMetaData.apply_csv
              { m.metadata with total_parts := some (m.parts.length : Int) }
              csv)))).2).get? 2 0 =
        (MamodelMetaData.apply_csv
          { m.metadata with total_parts := some (m.parts.length : Int) }
          csv).get? 2 0 := by
      rw [MamodelIntsInts.mii_apply_get?_lt _ _ _ (by omega),
        MamodelUnits.mu_apply_get?_ne _ _ _ (by omega),
        Mamodel.mm_applyParts_get?_lt _ _ _ (by omega)]
    rw [Mamodel.mm_apply_snd, CSV.getInt_congr h1]
    exact CSV.getInt_setOptInt_some _ _ _ _

/-! ## Claim C6 -/

/-- C6: a keyframe block read or written at cursor `index` returns the next
cursor `index + 2 + len(keyframes)` (base row 2 plus count times stride 1;
on read the number of keyframes equals the stored count, clamped at 0), and
the `UnitAnim` loops chain blocks so that the final cursor is the start plus
the sum of each block's `2 + len` — no hardcoded offsets. -/
theorem C6_cursor_advance :
    (∀ (index : Nat) (csv : CSV),
      (KeyFrames.read_csv index csv).2 =
        index + 2 + (KeyFrames.read_csv index csv).1.keyframes.length ∧
      (KeyFrames.read_csv index csv).1.keyframes.length =
        ((csv.getInt (index + 1) 0).getD 0).toNat) ∧
    (∀ (kf : KeyFrames) (index : Nat) (csv : CSV),
      (kf.apply_csv index csv).2.2 = index + 2 + kf.keyframes.length) ∧
    (∀ (ps : List KeyFrames) (index : Nat) (csv : CSV),
      (UnitAnim.applyParts ps index csv).2.2 =
        index + (ps.map (fun p => 2 + p.keyframes.length)).sum) ∧
    (∀ (n index : Nat) (csv : CSV),
      (UnitAnim.readParts n index csv).2 =
        index + (((UnitAnim.readParts n index csv).1.map
          (fun p => 2 + p.keyframes.length)).sum)) := by
  refine ⟨fun index csv => ⟨rfl, ?_⟩, fun kf index csv => rfl,
    fun ps index csv => UnitAnim.applyParts_cursor ps index csv,
    fun n index csv => UnitAnim.readParts_cursor n index csv⟩
  simp only [KeyFrames.read_csv]
  exact KeyFrames.kfs_readList_length _ _ _

/-! ## Claim C7 -/

/-- C7: schema round-trip — a `UnitAnim` (metadata plus keyframe blocks) or
a `Mamodel` whose count fields match its list lengths, written into a fresh
empty table with `apply_csv` and read back with `read_csv` (into a record
carrying the same file name, the one non-schema field), comes back equal
field-for-field; the written record itself is also unchanged. -/
theorem C7_schema_roundtrip :
    (∀ (ua ua0 : UnitAnim),
      ua.metadata.total_parts = some (ua.parts.length : Int) →
      (∀ p ∈ ua.parts, p.total_keyframes = some (p.keyframes.length : Int)) →
      ua0.name = ua.name →
      UnitAnim.read_csv ua0 (ua.apply_csv CSV.empty).2 = ua ∧
      (ua.apply_csv CSV.empty).1 = ua) ∧
    (∀ (m m0 : Mamodel),
      m.metadata.total_parts = some (m.parts.length : Int) →
      m.ints.total_ints = some (m.ints.ints.length : Int) →
      m0.mamodel_name = m.mamodel_name →
      Mamodel.read_csv m0 (m.apply_csv CSV.empty).2 = m ∧
      (m.apply_csv CSV.empty).1 = m) := by
  constructor
  · intro ua ua0 h1 hc hn
    exact ⟨UnitAnim.ua_read_apply_roundtrip ua ua0 h1 hc hn,
      UnitAnim.ua_apply_fst ua _ h1 hc⟩
  · intro m m0 h1 h2 hn
    exact ⟨Mamodel.mm_read_apply_roundtrip m m0 h1 h2 hn,
      Mamodel.mm_apply_fst m _ h1 h2⟩

/-- A concrete two-block animation for the C7 witness. -/
def exUA : UnitAnim :=
  { metadata := { head_name := some "[maanim]", version_code := some "1", total_parts := some 2 },
    parts :=
      [{ keyframes := [⟨some 0, some 1, some 2, some 3⟩, ⟨some 4, some 5, none, some 7⟩],
         model_id := some 0, modification_type := some 4, loop := some (-1),
         min_value := some 0, max_value := some 10, name := some "a",
         total_keyframes := some 2 },
       { keyframes := [],
         model_id := some 1, modification_type := none, loop := some 0,
         min_value := none, max_value := none, name := none,
         total_keyframes := some 0 }],
    name := some "000_f00.maanim" }

/-- A concrete two-part model for the C7 witness. -/
def exMM : Mamodel :=
  { metadata := { head_name := some "[modelanim:model]", version_code := some "3", total_parts := some 2 },
    parts :=
      [{ parent_id := some (-1), unit_id := some 0, cut_id := some 0, z_depth := some 0,
         x := some 0, y := some 0, pivot_x := some 0, pivot_y := some 0,
         scale_x := some 1000, scale_y := some 1000, rotation := some 0,
         alpha := some 1000, glow := some 0, name := some "root" },
       { parent_id := some 0, unit_id := some 0, cut_id := some 1, z_depth := some 1,
         x := some 5, y := some (-3), pivot_x := some 2, pivot_y := some 2,
         scale_x := some 1000, scale_y := some 1000, rotation := some 0,
         alpha := some 900, glow := none, name := none }],
    units := { scale_unit := some 1000, angle_unit := some 3600, alpha_unit := some 1000 },
    ints := { ints := [⟨some 0, some 0, some 0, some 0, some 0, some 0, some "c"⟩],
              total_ints := some 1 },
    mamodel_name := some "000_f.mamodel" }

/-- Witness for C7: the round trip evaluated at a concrete two-block
animation and a concrete two-part model. -/
theorem C7_witness :
    (UnitAnim.read_csv exUA (exUA.apply_csv CSV.empty).2 = exUA ∧
      (exUA.apply_csv CSV.empty).1 = exUA) ∧
    (Mamodel.read_csv exMM (exMM.apply_csv CSV.empty).2 = exMM ∧
      (exMM.apply_csv CSV.empty).1 = exMM) :=
  ⟨C7_schema_roundtrip.1 exUA exUA (by decide) (by decide) rfl,
   C7_schema_roundtrip.2 exMM exMM (by decide) (by decide) rfl⟩

/-! ## Claim C8 -/

/-- C8: on a snapshot whose ids are contiguous and 0-based (`keys` a
permutation of `0..n-1`, every entry's `shop_id` equal to its key) and for
any id `0 ≤ i < n`, `remove_item i` removes the record at `i` and moves
every record with a greater id (key and `shop_id`) down by one, and
`insert_item i r` moves every record with id at least `i` up by one and
stores `r` at `i` — so a 5-element snapshot keeps contiguous 0-based ids
`{0,1,2,3}` after removal at 2, and `{0,...,5}` after insertion at 2. -/
theorem C8_positional_shift (d : PyDict Item) (n : Nat) (i : Int)
    (hE : ∀ p ∈ d, p.2.shop_id = p.1)
    (hK : d.keys.Perm ((List.range n).map (fun j : Nat => (j : Int))))
    (hi0 : 0 ≤ i) (hin : i < (n : Int)) :
    (∀ k : Int, (ItemShop.remove_item d i).get? k =
      if 0 ≤ k ∧ k < i then d.get? k
      else if 0 ≤ k ∧ k < (n : Int) - 1 then
        (d.get? (k + 1)).map (fun it => { it with shop_id := k })
      else none) ∧
    (∀ (item : Item) (k : Int), (ItemShop.insert_item d i item).get? k =
      if k = i then some { item with shop_id := i }
      else if 0 ≤ k ∧ k < i then d.get? k
      else if i < k ∧ k < (n : Int) + 1 then
        (d.get? (k - 1)).map (fun it => { it with shop_id := k })
      else none) :=
  ⟨fun k => ItemShop.remove_item_get? d n i hE hK hi0 hin k,
   fun item k => ItemShop.insert_item_get? d n i hE hK hi0 hin item k⟩

/-- A concrete shop item for the positional-shift witnesses. -/
def exItem (j : Int) : Item :=
  { shop_id := j, gatya_item_id := j, count := 1, price := 100,
    draw_item_value := false, category_name := "XP", rect_id := 0 }

/-- A concrete contiguous 5-item shop snapshot. -/
def exShop : PyDict Item :=
  [(0, exItem 0), (1, exItem 1), (2, exItem 2), (3, exItem 3), (4, exItem 4)]

/-- A concrete item to insert. -/
def exNew : Item :=
  { shop_id := 9, gatya_item_id := 3, count := 2, price := 50,
    draw_item_value := true, category_name := "Battle Items", rect_id := 1 }

/-- Witness for C8: the spec's own example — removing id 2 from the
5-element shop leaves ids 0-3 (former 3 now at 2, nothing at 4), and
inserting at id 2 shifts former ids 2-4 to 3-5. -/
theorem C8_witness :
    (ItemShop.remove_item exShop 2).get? 1 = some (exItem 1) ∧
    (ItemShop.remove_item exShop 2).get? 2 =
      some { exItem 3 with shop_id := 2 } ∧
    (ItemShop.remove_item exShop 2).get? 4 = none ∧
    (ItemShop.insert_item exShop 2 exNew).get? 2 =
      some { exNew with shop_id := 2 } ∧
    (ItemShop.insert_item exShop 2 exNew).get? 3 =
      some { exItem 2 with shop_id := 3 } ∧
    (ItemShop.insert_item exShop 2 exNew).get? 5 =
      some { exItem 4 with shop_id := 5 } := by
  have h := C8_positional_shift exShop 5 2 (by decide) (by decide)
    (by decide) (by decide)
  exact ⟨(h.1 1).trans (by decide), (h.1 2).trans (by decide),
    (h.1 4).trans (by decide), (h.2 exNew 2).trans (by decide),
    (h.2 exNew 3).trans (by decide), (h.2 exNew 5).trans (by decide)⟩

/-! ## Claim C9 -/

/-- `get?_foldl_set_by` specialised to the decode fold of `from_game_data`. -/
theorem PyDict.get?_foldl_set_rows (l : List ItemShop.ShopRow)
    (init : PyDict Item) (k : Int) :
    (l.foldl (fun d r => d.set r.shop_id (ItemShop.Item.ofRow r)) init).get? k =
      match l.reverse.find? (fun r => r.shop_id = k) with
      | some r => some (ItemShop.Item.ofRow r)
      | none => init.get? k := by
  induction l generalizing init with
  | nil => rfl
  | cons b t ih =>
    rw [List.foldl_cons, ih, List.reverse_cons, List.find?_append]
    cases hf : t.reverse.find? (fun r => r.shop_id = k) with
    | some c => simp
    | none =>
      simp only [Option.none_or]
      by_cases hb : b.shop_id = k
      · subst hb
        simp [List.find?, PyDict.get?_set_self]
      · simp [List.find?, hb, PyDict.get?_set_ne _ _ _ (Ne.symm hb)]

/-- C9 counterexample: decoding a table in which two rows carry shop id 5,
the snapshot maps 5 to the item built from the last such row — but the
warning list recorded by the decode loop is empty: the source records no
warning for the conflict, contradicting the claim. -/
theorem C9_counterexample_no_warning :
    (ItemShop.from_game_data
      [⟨5, 1, 1, 100, false, "XP", 0⟩,
       ⟨5, 2, 2, 999, true, "Battle Items", 3⟩]).1.get? 5 =
      some ⟨5, 2, 2, 999, true, "Battle Items", 3⟩ ∧
    (ItemShop.from_game_data
      [⟨5, 1, 1, 100, false, "XP", 0⟩,
       ⟨5, 2, 2, 999, true, "Battle Items", 3⟩]).2 = [] := by
  exact ⟨by decide, rfl⟩

/-- C9 (amended): when two rows of the raw table resolve to the same shop
id, the snapshot holds the record built from the last such row (last one
read wins), and no warning is recorded — the decode loop emits none. -/
theorem C9_last_read_wins_silently (rows : List ItemShop.ShopRow) (k : Int) :
    (ItemShop.from_game_data rows).1.get? k =
      (rows.reverse.find? (fun r => r.shop_id = k)).map ItemShop.Item.ofRow ∧
    (ItemShop.from_game_data rows).2 = [] := by
  constructor
  · show PyDict.get? (rows.foldl (fun d r =>
        d.set r.shop_id (ItemShop.Item.ofRow r)) ([] : PyDict Item)) k = _
    rw [PyDict.get?_foldl_set_rows]
    cases rows.reverse.find? (fun r => r.shop_id = k) <;> rfl
  · rfl

/-! ## Claim C10 -/

/-- The key-consistency invariant: every stored item's `shop_id` equals its
map key. -/
def ItemShop.KeyConsistent (d : PyDict Item) : Prop :=
  ∀ (k : Int) (it : Item), d.get? k = some it → it.shop_id = k

/-- Entry-wise consistency (decidable on concrete snapshots) implies the
lookup-level invariant. -/
theorem ItemShop.keyConsistent_of_entries {d : PyDict Item}
    (hE : ∀ p ∈ d, p.2.shop_id = p.1) : ItemShop.KeyConsistent d :=
  fun _ _ hit => hE _ (PyDict.mem_of_get? hit)

/-- The rebuild of `shift_items` is key-consistent by construction: every
store uses the item's own (updated) `shop_id` as the key. -/
theorem ItemShop.shift_items_keyConsistent (d : PyDict Item) (s v : Int) :
    ItemShop.KeyConsistent (ItemShop.shift_items d s v) := by
  intro k it hit
  rw [ItemShop.shift_items_get?] at hit
  rcases hf : ((d.values.map (fun it =>
      if it.shop_id ≥ s then { it with shop_id := it.shop_id + v }
      else it)).reverse.find? (fun it => it.shop_id = k)) with _ | z <;>
    rw [hf] at hit <;> (try dsimp only at hit)
  · cases hit
  · have hpz : z.shop_id = k := by
      have hp := List.find?_some hf
      simpa using hp
    cases hit
    exact hpz

/-- `set_item` stamps the key into the stored item's `shop_id`, so it
preserves key consistency. -/
theorem ItemShop.set_item_keyConsistent {d : PyDict Item}
    (hd : ItemShop.KeyConsistent d) (i : Int) (item : Item) :
    ItemShop.KeyConsistent (ItemShop.set_item d i item) := by
  intro k it hit
  unfold ItemShop.set_item at hit
  by_cases hk : k = i
  · subst hk
    rw [PyDict.get?_set_self] at hit
    cases hit
    rfl
  · rw [PyDict.get?_set_ne _ _ _ hk] at hit
    exact hd k it hit

/-- C10: every `ItemShop` operation that stores or moves records preserves
the invariant that each stored item's `shop_id` equals its map key —
`set_item` overwrites `shop_id` with the index before storing, and
`shift_items` (hence `remove_item` and `insert_item`) rebuilds the map
keyed by each item's updated `shop_id`. -/
theorem C10_key_consistency_preserved :
    (∀ (d : PyDict Item) (i : Int) (item : Item), ItemShop.KeyConsistent d →
      ItemShop.KeyConsistent (ItemShop.set_item d i item)) ∧
    (∀ (d : PyDict Item) (item : Item), ItemShop.KeyConsistent d →
      ItemShop.KeyConsistent (ItemShop.add_item d item)) ∧
    (∀ (d : PyDict Item) (i : Int) (item : Item), ItemShop.KeyConsistent d →
      ItemShop.KeyConsistent (ItemShop.insert_item d i item)) ∧
    (∀ (d : PyDict Item) (i : Int), ItemShop.KeyConsistent d →
      ItemShop.KeyConsistent (ItemShop.remove_item d i)) ∧
    (∀ (d : PyDict Item) (s v : Int), ItemShop.KeyConsistent d →
      ItemShop.KeyConsistent (ItemShop.shift_items d s v)) := by
  refine ⟨fun d i item hd => ItemShop.set_item_keyConsistent hd i item,
    fun d item hd => ItemShop.set_item_keyConsistent hd item.shop_id item,
    fun d i item hd => ?_, fun d i hd => ?_,
    fun d s v _ => ItemShop.shift_items_keyConsistent d s v⟩
  · exact ItemShop.set_item_keyConsistent
      (ItemShop.shift_items_keyConsistent d i 1) i item
  · exact ItemShop.shift_items_keyConsistent (d.erase i) (i + 1) (-1)

/-- Witness for C10: the preservation theorem applied to the concrete
5-item shop for each of the five operations. -/
theorem C10_witness :
    ItemShop.KeyConsistent (ItemShop.set_item exShop 9 exNew) ∧
    ItemShop.KeyConsistent (ItemShop.add_item exShop exNew) ∧
    ItemShop.KeyConsistent (ItemShop.insert_item exShop 2 exNew) ∧
    ItemShop.KeyConsistent (ItemShop.remove_item exShop 2) ∧
    ItemShop.KeyConsistent (ItemShop.shift_items exShop 2 1) :=
  ⟨C10_key_consistency_preserved.1 exShop 9 exNew
    (ItemShop.keyConsistent_of_entries (by decide)),
   C10_key_consistency_preserved.2.1 exShop exNew
    (ItemShop.keyConsistent_of_entries (by decide)),
   C10_key_consistency_preserved.2.2.1 exShop 2 exNew
    (ItemShop.keyConsistent_of_entries (by decide)),
   C10_key_consistency_preserved.2.2.2.1 exShop 2
    (ItemShop.keyConsistent_of_entries (by decide)),
   C10_key_consistency_preserved.2.2.2.2 exShop 2 1
    (ItemShop.keyConsistent_of_entries (by decide))⟩
